import Mathlib

/-!
Verification of the Fire Claude native-messaging host
(`native-host/fire_claude_host.py`).

The development shallowly embeds the host's components:

* a JSON value model together with the compact serializer
  (`json.dumps(·, separators=(',', ':'))`, `ensure_ascii` default) and a
  recursive-descent parser modelling `json.loads`;
* the native-messaging frame codec (`read_message` / `send_message`):
  a 4-byte native-endian unsigned length prefix followed by the UTF-8
  bytes of the compact JSON payload;
* the process registry (`active_processes` with `cancel_request`);
* the query executor `query_claude`, parameterised by an environment
  `QueryEnv` that supplies what the operating system would: the located
  executable path, the spawned subprocess outcome, the process id and
  the measured wall-clock duration;
* the dispatcher `handle_message`.

Machine-level effects are made explicit: the registry is threaded as a
value, and registry registrations/unregistrations plus executor
invocations are reported in an event trace.

Modelling notes: JSON numbers are modelled as integers (the requests the
host exchanges carry integers and strings); Python strings are modelled
as Lean strings (sequences of Unicode scalar values).
-/

namespace FireClaude

/-! ## JSON values and the compact serializer -/

/-- JSON values, with objects as ordered association lists (the model of a
Python `dict`) and numbers restricted to integers. -/
inductive Json where
  | null : Json
  | bool (b : Bool) : Json
  | int (n : Int) : Json
  | str (s : List Char) : Json
  | arr (xs : List Json) : Json
  | obj (kvs : List (List Char × Json)) : Json

/-- The character for a decimal digit. -/
def digitChar (d : Nat) : Char := Char.ofNat (48 + d)

/-- Lowercase hexadecimal digit character, as Python's `'%04x'` formatting. -/
def hexDigitChar (d : Nat) : Char := Char.ofNat (if d < 10 then 48 + d else 87 + d)

/-- Four lowercase hex digits, most significant first. -/
def hex4 (n : Nat) : List Char :=
  [hexDigitChar (n / 4096 % 16), hexDigitChar (n / 256 % 16),
   hexDigitChar (n / 16 % 16), hexDigitChar (n % 16)]

/-- How `json.dumps` (with the default `ensure_ascii=True`) renders one
character inside a string literal: short escapes for the common control
characters, `\uXXXX` for other control characters and for everything
outside printable ASCII, surrogate pairs beyond the basic plane. -/
def escChar (c : Char) : List Char :=
  if c = '"' then ['\\', '"']
  else if c = '\\' then ['\\', '\\']
  else if c = '\x08' then ['\\', 'b']
  else if c = '\t' then ['\\', 't']
  else if c = '\n' then ['\\', 'n']
  else if c = '\x0c' then ['\\', 'f']
  else if c = '\r' then ['\\', 'r']
  else if c.toNat < 0x20 then '\\' :: 'u' :: hex4 c.toNat
  else if c.toNat < 0x7f then [c]
  else if c.toNat < 0x10000 then '\\' :: 'u' :: hex4 c.toNat
  else
    ('\\' :: 'u' :: hex4 (0xD800 + (c.toNat - 0x10000) / 0x400)) ++
    ('\\' :: 'u' :: hex4 (0xDC00 + (c.toNat - 0x10000) % 0x400))

/-- Escape every character of a string body. -/
def escapeList : List Char → List Char
  | [] => []
  | c :: cs => escChar c ++ escapeList cs

/-- Decimal digits of a natural number, as Python's `str`. -/
def natDump (n : Nat) : List Char :=
  if _h : n < 10 then [digitChar n]
  else natDump (n / 10) ++ [digitChar (n % 10)]
decreasing_by exact Nat.div_lt_self (by omega) (by omega)

/-- Decimal rendering of an integer, as Python's `str`. -/
def intDump (n : Int) : List Char :=
  if n < 0 then '-' :: natDump (-n).toNat else natDump n.toNat

mutual

/-- Compact serialization: `json.dumps(v, separators=(',', ':'))`. -/
def dumps : Json → List Char
  | .null => 'n' :: ['u', 'l', 'l']
  | .bool true => 't' :: ['r', 'u', 'e']
  | .bool false => 'f' :: ['a', 'l', 's', 'e']
  | .int n => intDump n
  | .str s => '"' :: (escapeList s ++ ['"'])
  | .arr [] => ['[', ']']
  | .arr (x :: xs) => '[' :: (dumps x ++ (dumpsArrTail xs ++ [']']))
  | .obj [] => ['\x7b', '\x7d']
  | .obj (kv :: kvs) => '\x7b' :: (dumpsMember kv ++ (dumpsObjTail kvs ++ ['\x7d']))

/-- One `"key":value` member of an object, with the compact `':'` separator. -/
def dumpsMember : List Char × Json → List Char
  | (k, v) => '"' :: (escapeList k ++ ('"' :: ':' :: dumps v))

/-- Remaining array items, each preceded by the compact `','` separator. -/
def dumpsArrTail : List Json → List Char
  | [] => []
  | x :: xs => ',' :: (dumps x ++ dumpsArrTail xs)

/-- Remaining object members, each preceded by the compact `','` separator. -/
def dumpsObjTail : List (List Char × Json) → List Char
  | [] => []
  | kv :: kvs => ',' :: (dumpsMember kv ++ dumpsObjTail kvs)

end

mutual

/-- Fuel bound used by the round-trip proof: an upper bound on the parser
fuel a value needs. -/
def sizeJ : Json → Nat
  | .arr xs => 1 + sizeItems xs
  | .obj kvs => 1 + sizeMembers kvs
  | _ => 1

/-- Fuel bound for the trailing items of an array. -/
def sizeItems : List Json → Nat
  | [] => 1
  | x :: xs => 1 + max (sizeJ x) (sizeItems xs)

/-- Fuel bound for the trailing members of an object. -/
def sizeMembers : List (List Char × Json) → Nat
  | [] => 1
  | kv :: kvs => 1 + max (sizeJ kv.2) (sizeMembers kvs)

end

/-! ## The JSON parser (model of `json.loads`) -/

/-- JSON insignificant whitespace. -/
def jsonWsB (c : Char) : Bool := c = ' ' || c = '\t' || c = '\n' || c = '\r'

/-- Skip insignificant whitespace. -/
def skipWs (l : List Char) : List Char := l.dropWhile jsonWsB

/-- Value of one hexadecimal digit. -/
def hexVal (c : Char) : Option Nat :=
  if '0' ≤ c ∧ c ≤ '9' then some (c.toNat - 48)
  else if 'a' ≤ c ∧ c ≤ 'f' then some (c.toNat - 87)
  else if 'A' ≤ c ∧ c ≤ 'F' then some (c.toNat - 55)
  else none

/-- Value of a four-digit hexadecimal escape. -/
def hex4Val (a b c d : Char) : Option Nat :=
  match hexVal a, hexVal b, hexVal c, hexVal d with
  | some x, some y, some z, some w => some (4096 * x + 256 * y + 16 * z + w)
  | _, _, _, _ => none

/-- The short-escape table of `json.loads` (the `BACKSLASH` dictionary). -/
def simpleEsc (e : Char) : Option Char :=
  if e = '"' then some '"'
  else if e = '\\' then some '\\'
  else if e = '/' then some '/'
  else if e = 'b' then some '\x08'
  else if e = 'f' then some '\x0c'
  else if e = 'n' then some '\n'
  else if e = 'r' then some '\r'
  else if e = 't' then some '\t'
  else none

/-- Decode the digits of a `\uXXXX` escape (the backslash and `u` already
consumed), recombining a high surrogate followed by a `\uXXXX` low
surrogate into one scalar. Returns the decoded character and how many
input characters were consumed (4, or 10 for a pair). A lone surrogate
has no Unicode-scalar denotation and is rejected. -/
def parseUEsc (r : List Char) : Option (Char × Nat) :=
  match r with
  | a :: b :: c :: d :: rest2 =>
    match hex4Val a b c d with
    | none => none
    | some n =>
      if n < 0xD800 ∨ 0xE000 ≤ n then some (Char.ofNat n, 4)
      else if n < 0xDC00 then
        match rest2 with
        | e2 :: u2 :: a2 :: b2 :: c2 :: d2 :: _ =>
          if e2 = '\\' ∧ u2 = 'u' then
            match hex4Val a2 b2 c2 d2 with
            | none => none
            | some m =>
              if 0xDC00 ≤ m ∧ m < 0xE000 then
                some (Char.ofNat (0x10000 + 0x400 * (n - 0xD800) + (m - 0xDC00)), 10)
              else none
          else none
        | _ => none
      else none
  | _ => none

/-- Parse a string body after the opening quote, up to and including the
closing quote. Unescaped control characters are rejected (strict mode). -/
def parseStringBody : List Char → Option (List Char × List Char)
  | [] => none
  | c :: rest =>
    if c = '"' then some ([], rest)
    else if c = '\\' then
      match rest with
      | [] => none
      | e :: r =>
        match simpleEsc e with
        | some c2 => (parseStringBody r).map (fun p => (c2 :: p.1, p.2))
        | none =>
          if e = 'u' then
            match parseUEsc r with
            | none => none
            | some (c2, k) => (parseStringBody (r.drop k)).map (fun p => (c2 :: p.1, p.2))
          else none
    else if c.toNat < 0x20 then none
    else (parseStringBody rest).map (fun p => (c :: p.1, p.2))
termination_by l => l.length
decreasing_by
  · simp
    omega
  · simp [List.length_drop]
    omega
  · simp

/-- Value of a list of decimal digit characters. -/
def digitVal (l : List Char) : Nat := l.foldl (fun a c => 10 * a + (c.toNat - 48)) 0

/-- Parse a maximal run of decimal digits. -/
def parseDigits (l : List Char) : Option (Nat × List Char) :=
  let ds := l.takeWhile (fun c => c.isDigit)
  if ds.isEmpty then none else some (digitVal ds, l.dropWhile (fun c => c.isDigit))

mutual

/-- Parse one JSON value. The fuel dominates the nesting structure; any
fuel of at least `sizeJ` of the value suffices. -/
def parseVal : Nat → List Char → Option (Json × List Char)
  | 0, _ => none
  | fuel + 1, l =>
    match l with
    | [] => none
    | c :: rest =>
      if c = 'n' then
        match rest with
        | 'u' :: 'l' :: 'l' :: r => some (.null, r)
        | _ => none
      else if c = 't' then
        match rest with
        | 'r' :: 'u' :: 'e' :: r => some (.bool true, r)
        | _ => none
      else if c = 'f' then
        match rest with
        | 'a' :: 'l' :: 's' :: 'e' :: r => some (.bool false, r)
        | _ => none
      else if c = '"' then
        (parseStringBody rest).map (fun p => (.str p.1, p.2))
      else if c = '[' then
        match skipWs rest with
        | [] => none
        | c2 :: r2 =>
          if c2 = ']' then some (.arr [], r2)
          else
            match parseVal fuel (c2 :: r2) with
            | none => none
            | some (v, r3) =>
              match parseArrTail fuel r3 with
              | none => none
              | some (vs, r4) => some (.arr (v :: vs), r4)
      else if c = '\x7b' then
        match skipWs rest with
        | [] => none
        | c2 :: r2 =>
          if c2 = '\x7d' then some (.obj [], r2)
          else if c2 = '"' then
            match parseStringBody r2 with
            | none => none
            | some (k, r3) =>
              match skipWs r3 with
              | [] => none
              | c3 :: r4 =>
                if c3 = ':' then
                  match parseVal fuel (skipWs r4) with
                  | none => none
                  | some (v, r5) =>
                    match parseObjTail fuel r5 with
                    | none => none
                    | some (kvs, r6) => some (.obj ((k, v) :: kvs), r6)
                else none
          else none
      else if c = '-' then
        match parseDigits rest with
        | none => none
        | some (k, r) => some (.int (-(k : Int)), r)
      else if c.isDigit then
        match parseDigits (c :: rest) with
        | none => none
        | some (k, r) => some (.int (k : Int), r)
      else none

/-- Parse the remainder of an array after one item: either `]`, or a
comma-separated continuation. -/
def parseArrTail : Nat → List Char → Option (List Json × List Char)
  | 0, _ => none
  | fuel + 1, l =>
    match skipWs l with
    | [] => none
    | c :: r =>
      if c = ']' then some ([], r)
      else if c = ',' then
        match parseVal fuel (skipWs r) with
        | none => none
        | some (v, r2) =>
          match parseArrTail fuel r2 with
          | none => none
          | some (vs, r3) => some (v :: vs, r3)
      else none

/-- Parse the remainder of an object after one member: either the closing
brace, or a comma-separated continuation. -/
def parseObjTail : Nat → List Char → Option (List (List Char × Json) × List Char)
  | 0, _ => none
  | fuel + 1, l =>
    match skipWs l with
    | [] => none
    | c :: r =>
      if c = '\x7d' then some ([], r)
      else if c = ',' then
        match skipWs r with
        | [] => none
        | c2 :: r2 =>
          if c2 = '"' then
            match parseStringBody r2 with
            | none => none
            | some (k, r3) =>
              match skipWs r3 with
              | [] => none
              | c3 :: r4 =>
                if c3 = ':' then
                  match parseVal fuel (skipWs r4) with
                  | none => none
                  | some (v, r5) =>
                    match parseObjTail fuel r5 with
                    | none => none
                    | some (kvs, r6) => some ((k, v) :: kvs, r6)
                else none
          else none
      else none

end

/-- Model of `json.loads`: parse one value surrounded by optional
whitespace; anything left over is an error. -/
def loads (l : List Char) : Option Json :=
  match parseVal (l.length + 1) (skipWs l) with
  | some (v, rest) => if skipWs rest = [] then some v else none
  | none => none

/-! ## UTF-8 and the frame codec -/

/-- UTF-8 encoding of one Unicode scalar value. -/
def utf8EncodeChar (c : Char) : List Nat :=
  let n := c.toNat
  if n < 0x80 then [n]
  else if n < 0x800 then [0xC0 + n / 0x40, 0x80 + n % 0x40]
  else if n < 0x10000 then
    [0xE0 + n / 0x1000, 0x80 + n / 0x40 % 0x40, 0x80 + n % 0x40]
  else
    [0xF0 + n / 0x40000, 0x80 + n / 0x1000 % 0x40, 0x80 + n / 0x40 % 0x40, 0x80 + n % 0x40]

/-- UTF-8 encoding of a string. -/
def utf8Encode : List Char → List Nat
  | [] => []
  | c :: cs => utf8EncodeChar c ++ utf8Encode cs

/-- Decode the continuation of a multi-byte UTF-8 sequence with lead byte
`b` (already checked to be a valid lead): the decoded scalar and how many
continuation bytes were consumed. Overlong forms, surrogates and
out-of-range scalars are rejected. -/
def utf8Multi (b : Nat) (rest : List Nat) : Option (Char × Nat) :=
  if b < 0xE0 then
    match rest with
    | b2 :: _ =>
      if 0x80 ≤ b2 ∧ b2 < 0xC0 then
        some (Char.ofNat ((b - 0xC0) * 0x40 + (b2 - 0x80)), 1)
      else none
    | _ => none
  else if b < 0xF0 then
    match rest with
    | b2 :: b3 :: _ =>
      if 0x80 ≤ b2 ∧ b2 < 0xC0 ∧ 0x80 ≤ b3 ∧ b3 < 0xC0 then
        let n := (b - 0xE0) * 0x1000 + (b2 - 0x80) * 0x40 + (b3 - 0x80)
        if 0x800 ≤ n ∧ (n < 0xD800 ∨ 0xE000 ≤ n) then some (Char.ofNat n, 2) else none
      else none
    | _ => none
  else
    match rest with
    | b2 :: b3 :: b4 :: _ =>
      if 0x80 ≤ b2 ∧ b2 < 0xC0 ∧ 0x80 ≤ b3 ∧ b3 < 0xC0 ∧ 0x80 ≤ b4 ∧ b4 < 0xC0 then
        let n := (b - 0xF0) * 0x40000 + (b2 - 0x80) * 0x1000 +
          (b3 - 0x80) * 0x40 + (b4 - 0x80)
        if 0x10000 ≤ n ∧ n < 0x110000 then some (Char.ofNat n, 3) else none
      else none
    | _ => none

/-- Strict UTF-8 decoding (as Python's `bytes.decode('utf-8')`): rejects
stray continuation bytes, overlong forms, surrogates and out-of-range
scalars. -/
def utf8Decode : List Nat → Option (List Char)
  | [] => some []
  | b :: rest =>
    if b < 0x80 then (utf8Decode rest).map (fun l => Char.ofNat b :: l)
    else if b < 0xC2 then none
    else if b < 0xF5 then
      match utf8Multi b rest with
      | none => none
      | some (c, k) => (utf8Decode (rest.drop k)).map (fun l => c :: l)
    else none
termination_by l => l.length
decreasing_by
  · simp
  · simp [List.length_drop]
    omega

/-- The 4 bytes of `struct.pack('@I', n)` on a little-endian host (both
peers run in the same process, so only agreement matters). -/
def pack4 (n : Nat) : List Nat :=
  [n % 256, n / 256 % 256, n / 65536 % 256, n / 16777216 % 256]

/-- `struct.unpack('@I', ·)` on the same host. -/
def unpack4 (b0 b1 b2 b3 : Nat) : Nat :=
  b0 + 256 * b1 + 65536 * b2 + 16777216 * b3

/-- Model of `send_message`: compact-serialize, UTF-8 encode, and emit the
length-prefixed frame. `struct.pack('@I', ·)` raises on a length that does
not fit 32 bits, modelled as `none`. -/
def send_message (v : Json) : Option (List Nat) :=
  let encoded := utf8Encode (dumps v)
  if encoded.length < 4294967296 then some (pack4 encoded.length ++ encoded) else none

/-- Model of `read_message` on a byte stream: an empty stream signals
end-of-stream (`some (none, ·)`); otherwise read the 4-byte length, the
payload, UTF-8 decode and JSON-parse it. Short reads and decode failures
are raised exceptions, modelled as `none`. -/
def read_message (stdin : List Nat) : Option (Option Json × List Nat) :=
  match stdin with
  | [] => some (none, [])
  | b0 :: b1 :: b2 :: b3 :: rest =>
    let n := unpack4 b0 b1 b2 b3
    if n ≤ rest.length then
      match utf8Decode (rest.take n) with
      | none => none
      | some chars =>
        match loads chars with
        | none => none
        | some v => some (some v, rest.drop n)
    else none
  | _ => none

/-! ## Pretty serializer used by `analyze_network` (`json.dumps(·, indent=2)`) -/

/-- Indentation spaces. -/
def indentSp (n : Nat) : List Char := List.replicate n ' '

mutual

/-- Model of `json.dumps(v, indent=2)`, used by the dispatcher to build
the `analyze_network` context. -/
def dumpsPretty : Nat → Json → List Char
  | _, .null => ['n', 'u', 'l', 'l']
  | _, .bool true => ['t', 'r', 'u', 'e']
  | _, .bool false => ['f', 'a', 'l', 's', 'e']
  | _, .int n => intDump n
  | _, .str s => '"' :: (escapeList s ++ ['"'])
  | _, .arr [] => ['[', ']']
  | ind, .arr (x :: xs) =>
    '[' :: '\n' :: (indentSp (ind + 2) ++ (dumpsPretty (ind + 2) x ++
      (dumpsPrettyArrTail (ind + 2) xs ++ ('\n' :: (indentSp ind ++ [']'])))))
  | _, .obj [] => ['\x7b', '\x7d']
  | ind, .obj (kv :: kvs) =>
    '\x7b' :: '\n' :: (indentSp (ind + 2) ++ (dumpsPrettyMember (ind + 2) kv ++
      (dumpsPrettyObjTail (ind + 2) kvs ++ ('\n' :: (indentSp ind ++ ['\x7d'])))))

/-- One pretty-printed object member, with the default `': '` separator. -/
def dumpsPrettyMember : Nat → List Char × Json → List Char
  | ind, (k, v) => '"' :: (escapeList k ++ ('"' :: ':' :: ' ' :: dumpsPretty ind v))

/-- Remaining pretty-printed array items. -/
def dumpsPrettyArrTail : Nat → List Json → List Char
  | _, [] => []
  | ind, x :: xs =>
    ',' :: '\n' :: (indentSp ind ++ (dumpsPretty ind x ++ dumpsPrettyArrTail ind xs))

/-- Remaining pretty-printed object members. -/
def dumpsPrettyObjTail : Nat → List (List Char × Json) → List Char
  | _, [] => []
  | ind, kv :: kvs =>
    ',' :: '\n' :: (indentSp ind ++ (dumpsPrettyMember ind kv ++ dumpsPrettyObjTail ind kvs))

end

/-! ## Python string helpers -/

/-- Python string slicing `s[:n]` (by code point). -/
def pyTake (s : String) (n : Nat) : String := String.mk (s.data.take n)

/-- The whitespace stripped by Python's `str.strip()`. -/
def pyIsSpace (c : Char) : Bool :=
  c = ' ' || c = '\t' || c = '\n' || c = '\r' || c = '\x0b' || c = '\x0c'

/-- Python's `str.strip()`: drop whitespace from both ends (modelled over
the ASCII whitespace characters `str.strip` removes). -/
def pyStrip (s : String) : String :=
  String.mk (((s.data.dropWhile pyIsSpace).reverse.dropWhile pyIsSpace).reverse)

/-- Python f-string interpolation of an optional string: `None` renders as
the text `"None"`. -/
def pyFmtOptStr (a : Option String) : String :=
  match a with
  | some s => s
  | none => "None"

/-- Python's `x or default` for an optional string: `None` and the empty
string are falsy. -/
def pyOrStr (a : Option String) (d : String) : String :=
  match a with
  | some s => if s = "" then d else s
  | none => d

/-! ## Process registry -/

/-- A tracked subprocess handle: its OS pid, whether the OS process is
still running (a successful forcible termination clears the flag), and
whether a `process.kill()` attempt on it raises — the operating system
decides this (a race where the process disappears between the liveness
poll and the signal, or an OS-level refusal to signal). -/
structure Proc where
  pid : Nat
  alive : Bool
  kill_raises : Bool
  deriving DecidableEq

/-- The `active_processes` table: request id to subprocess handle. All the
host's accesses happen under one lock, so the map is modelled as a value
threaded sequentially. -/
abbrev Registry := List (Int × Proc)

/-- Dictionary lookup `active_processes.get(rid)`. -/
def regLookup (reg : Registry) (rid : Int) : Option Proc :=
  (reg.find? (fun e => e.1 == rid)).map (fun e => e.2)

/-- Dictionary deletion `active_processes.pop(rid, None)`. -/
def regErase (reg : Registry) (rid : Int) : Registry :=
  reg.filter (fun e => e.1 != rid)

/-- Dictionary assignment `active_processes[rid] = p`. -/
def regInsert (reg : Registry) (rid : Int) (p : Proc) : Registry :=
  (rid, p) :: regErase reg rid

/-- The effect of a successful `process.kill()` on the tracked handle. -/
def regKill (reg : Registry) (rid : Int) : Registry :=
  reg.map (fun e => if e.1 = rid then (e.1, Proc.mk e.2.pid false e.2.kill_raises) else e)

/-- Model of `cancel_request` (lines 256-266): under the lock, look the
handle up; with no handle, fall through to `return False`. With a handle,
attempt `process.kill()`: if the kill succeeds the function returns
`True` with the handle terminated; if the kill raises, the
`except Exception: pass` swallows the error and control falls through to
`return False`, leaving the handle as it was. The entry is not removed in
either case — the executor's own cleanup does that. -/
def cancel_request (reg : Registry) (request_id : Int) : Bool × Registry :=
  match regLookup reg request_id with
  | some p => if p.kill_raises then (false, reg) else (true, regKill reg request_id)
  | none => (false, reg)

/-! ## Query executor -/

/-- The allow-list `VALID_MODELS`. -/
def VALID_MODELS : List String := ["sonnet", "opus", "haiku"]

/-- Model validation at line 128: an unrecognized value silently falls
back to `'sonnet'`. -/
def pyModelAlias (model : String) : String :=
  if model ∈ VALID_MODELS then model else "sonnet"

/-- Prompt concatenation at line 126: context first, a blank line, then
the prompt; an empty (falsy) context leaves the prompt alone. -/
def pyFullPrompt (context prompt : String) : String :=
  if context ≠ "" then context ++ "\n\n" ++ prompt else prompt

/-- The 500-character preview the executor records for debugging. -/
def pyPreview (s : String) : String :=
  pyTake s 500 ++ (if s.length > 500 then "..." else "")

/-- What the spawned command line feeds the external CLI: the resolved
executable, the validated model alias, and the full prompt text piped
into its standard input from the temporary file. -/
structure SpawnSpec where
  path : String
  model : String
  input : String

/-- The spawn specification `query_claude` hands to the operating system:
`<path> -p - --model <alias>` with `full_prompt` on standard input. -/
def querySpawnSpec (path prompt context model : String) : SpawnSpec :=
  SpawnSpec.mk path (pyModelAlias model) (pyFullPrompt context prompt)

/-- Outcome of waiting on the subprocess: it exited within the 180-second
timeout with an exit code and captured output, the wait timed out, or
`communicate` raised some other exception. -/
inductive RunOutcome where
  | completed (rc : Int) (stdout stderr : String)
  | timedOut
  | raised (msg : String)

/-- An exception raised before the subprocess was registered (temp-file
creation or `Popen` itself): either `FileNotFoundError` or another
exception, with its message. -/
inductive SpawnExc where
  | fnf (msg : String)
  | other (msg : String)

/-- The environment the operating system supplies to one executor call.
`kill_raises` is whether a `process.kill()` on the subprocess this call
spawns would raise. -/
structure QueryEnv where
  claude_path : Option String
  pid : Nat
  spawn_exc : Option SpawnExc
  run : SpawnSpec → RunOutcome
  elapsed_ms : Nat
  kill_raises : Bool

/-- Model of `find_claude`: the environment's resolved executable path. -/
def find_claude (env : QueryEnv) : Option String := env.claude_path

/-- Registry operations and executor invocations, reported as a trace. -/
inductive Event where
  | queryCall (prompt context : String) (rid : Int) (model : String)
  | register (rid : Int)
  | unregister (rid : Int)
  deriving DecidableEq

/-- The `result_data` dictionary `query_claude` returns. Fields that are
present on every path are plain; fields only some paths set are options. -/
structure ResultData where
  prompt_size : Nat
  prompt_preview : String
  model_used : String
  duration_ms : Nat
  response : String
  success : Bool
  claude_path : Option String
  response_size : Option Nat
  response_preview : Option String
  deriving DecidableEq

/-- The diagnostic response built when the executable cannot be found
(lines 144-153). -/
def notFoundResponse : String :=
  "Error: Claude Code CLI not found.\n\nSearched locations:\n- PATH directories\n- %APPDATA%\\npm\n- %LOCALAPPDATA%\\npm\n\nPlease ensure Claude Code is installed:\n  npm install -g @anthropic-ai/claude-code\n\nOr specify the full path in the native host script."

/-- The timeout response (line 227). -/
def timeoutResponse : String :=
  "Error: Claude Code request timed out (180s). This may indicate Claude Code CLI needs authentication or is prompting for input."

/-- Model of `query_claude`: build the prompt, validate the model, locate
the executable, spawn, register, wait, classify, and unregister. Returns
the result dictionary, the updated registry, and the registry-event
trace. -/
def query_claude (env : QueryEnv) (reg : Registry) (prompt context : String)
    (request_id : Int) (model : String) : ResultData × Registry × List Event :=
  let full_prompt := pyFullPrompt context prompt
  let model_alias := pyModelAlias model
  let ps := full_prompt.length
  let preview := pyPreview full_prompt
  match find_claude env with
  | none =>
    (ResultData.mk ps preview model_alias 0 notFoundResponse false none none none, reg, [])
  | some claude_path =>
    match env.spawn_exc with
    | some (.fnf m) =>
      (ResultData.mk ps preview model_alias env.elapsed_ms
        ("Error: Could not execute '" ++ claude_path ++ "': " ++ m) false none none none,
       reg, [])
    | some (.other m) =>
      (ResultData.mk ps preview model_alias env.elapsed_ms
        ("Error: " ++ m) false none none none, reg, [])
    | none =>
      let reg1 := regInsert reg request_id (Proc.mk env.pid true env.kill_raises)
      let reg2 := regErase reg1 request_id
      let evs := [Event.register request_id, Event.unregister request_id]
      match env.run (querySpawnSpec claude_path prompt context model) with
      | .completed rc stdout stderr =>
        if rc = 0 then
          (ResultData.mk ps preview model_alias env.elapsed_ms (pyStrip stdout) true
            (some claude_path) (some stdout.length) (some (pyPreview stdout)), reg2, evs)
        else
          (ResultData.mk ps preview model_alias env.elapsed_ms
            ("Error (exit code " ++ toString rc ++ "): " ++ stderr) false
            (some claude_path) none none, reg2, evs)
      | .timedOut =>
        (ResultData.mk ps preview model_alias env.elapsed_ms timeoutResponse false
          none none none, reg2, evs)
      | .raised m =>
        (ResultData.mk ps preview model_alias env.elapsed_ms ("Error: " ++ m) false
          none none none, reg2, evs)

/-! ## Dispatcher -/

/-- An incoming request, each field optional as in a decoded JSON dict. -/
structure Message where
  action : Option String
  requestId : Option Int
  targetRequestId : Option Int
  content : Option String
  question : Option String
  selection : Option String
  networkData : Option Json
  html : Option String
  request : Option String
  model : Option String

/-- The response dictionary the dispatcher produces. Keys only some paths
set are options. -/
structure Response where
  requestId : Int
  success : Bool
  action : Option String
  result : Option String
  error : Option String
  cancelled : Option Bool
  claude_path : Option String
  response : Option String
  duration_ms : Option Nat
  prompt_size : Option Nat
  prompt_preview : Option String
  model_used : Option String
  response_size : Option Nat
  response_preview : Option String
  deriving DecidableEq

/-- The initial response envelope of `handle_message` (lines 275-279). -/
def mkBase (rid : Int) (action : Option String) : Response :=
  Response.mk rid false action none none none none none none none none none none none

/-- The effect of `response.update(result)` followed by aliasing `result`
from the executor's `response` and `success` from its `success`. -/
def applyResult (r : Response) (d : ResultData) : Response :=
  { r with
    prompt_size := some d.prompt_size
    prompt_preview := some d.prompt_preview
    model_used := some d.model_used
    duration_ms := some d.duration_ms
    response := some d.response
    claude_path := match d.claude_path with | some p => some p | none => r.claude_path
    response_size := match d.response_size with | some n => some n | none => r.response_size
    response_preview :=
      match d.response_preview with | some p => some p | none => r.response_preview
    success := d.success
    result := some d.response }

/-- The fixed `summarize` instruction. -/
def summarizePrompt : String := "Summarize the following web page content concisely:"

/-- The fixed `analyze_network` instruction. -/
def analyzePrompt : String :=
  "Analyze this network activity and identify what's consuming the most resources. Provide insights on potential performance issues:"

/-- The `ask` context frame. -/
def askContext (content : String) : String :=
  "Based on this web page content:\n" ++ content

/-- The `explain` prompt. -/
def explainPrompt (selection : String) : String :=
  "Explain the following text or code snippet:\n" ++ selection

/-- The `suggest_dom_changes` prompt template (lines 347-365), embedding
the user's free-text request and the fixed schema description. -/
def dscPrompt (request : String) : String :=
  "User request: " ++ request ++
  "\n\nSuggest specific DOM changes as a JSON array. Each change should have:\n- \"action\": one of \"setText\", \"setHTML\", \"setAttribute\", \"addClass\", \"removeClass\", \"setStyle\", \"remove\"\n- \"selector\": CSS selector for the target element\n- For setText/setHTML: \"value\" with the new content\n- For setAttribute: \"attribute\" and \"value\"\n- For addClass/removeClass: \"className\"\n- For setStyle: \"property\" and \"value\"\n\nExample response format:\n```json\n[\n  \x7b\"action\": \"setText\", \"selector\": \"h1.title\", \"value\": \"New Title\"\x7d,\n  \x7b\"action\": \"setStyle\", \"selector\": \".sidebar\", \"property\": \"display\", \"value\": \"none\"\x7d\n]\n```\n\nRespond with ONLY the JSON array, no other text."

/-- The `suggest_dom_changes` context: fixed header plus the HTML sliced
to its first 20,000 characters (line 366). -/
def dscContext (html : String) : String :=
  "Current HTML structure:\n" ++ pyTake html 20000

/-- The action names the dispatcher recognizes. -/
def recognizedActions : List String :=
  ["cancel", "summarize", "ask", "explain", "analyze_network", "suggest_dom_changes", "ping"]

/-- Model of `handle_message`: route on the action tag, invoke the
executor or the registry, and build the response envelope. Returns the
response, the updated registry, and the event trace (`queryCall` marks an
invocation of the query executor). -/
def handle_message (env : QueryEnv) (reg : Registry) (msg : Message) :
    Response × Registry × List Event :=
  let action := msg.action
  let request_id := msg.requestId.getD 0
  let base := mkBase request_id action
  match action with
  | some "cancel" =>
    let target_id := msg.targetRequestId.getD 0
    let c := cancel_request reg target_id
    ({ base with
        success := true
        cancelled := some c.1
        result := some (if c.1 then "Request cancelled" else "No active request found") },
     c.2, [])
  | some "summarize" =>
    let content := msg.content.getD ""
    let model := msg.model.getD "sonnet"
    let q := query_claude env reg summarizePrompt content request_id model
    (applyResult base q.1, q.2.1,
     Event.queryCall summarizePrompt content request_id model :: q.2.2)
  | some "ask" =>
    let question := msg.question.getD ""
    let content := msg.content.getD ""
    let model := msg.model.getD "sonnet"
    let q := query_claude env reg question (askContext content) request_id model
    (applyResult base q.1, q.2.1,
     Event.queryCall question (askContext content) request_id model :: q.2.2)
  | some "explain" =>
    let selection := msg.selection.getD ""
    let model := msg.model.getD "sonnet"
    let q := query_claude env reg (explainPrompt selection) "" request_id model
    (applyResult base q.1, q.2.1,
     Event.queryCall (explainPrompt selection) "" request_id model :: q.2.2)
  | some "analyze_network" =>
    let network_data := msg.networkData.getD (Json.arr [])
    let model := msg.model.getD "sonnet"
    let ctx := String.mk (dumpsPretty 0 network_data)
    let q := query_claude env reg analyzePrompt ctx request_id model
    (applyResult base q.1, q.2.1,
     Event.queryCall analyzePrompt ctx request_id model :: q.2.2)
  | some "suggest_dom_changes" =>
    let html := msg.html.getD ""
    let request := msg.request.getD ""
    let model := msg.model.getD "sonnet"
    let q := query_claude env reg (dscPrompt request) (dscContext html) request_id model
    (applyResult base q.1, q.2.1,
     Event.queryCall (dscPrompt request) (dscContext html) request_id model :: q.2.2)
  | some "ping" =>
    let claude_path := find_claude env
    ({ base with
        result := some "pong"
        claude_path := some (pyOrStr claude_path "NOT FOUND")
        success := true },
     reg, [])
  | _ =>
    ({ base with error := some ("Unknown action: " ++ pyFmtOptStr action) }, reg, [])

/-- The context argument of an executor-invocation event, when the event
is one. -/
def eventContext : Event → Option String
  | .queryCall _ c _ _ => some c
  | _ => none

/-! ## Registry lemmas -/

theorem regLookup_erase_self (reg : Registry) (rid : Int) :
    regLookup (regErase reg rid) rid = none := by
  induction reg with
  | nil => rfl
  | cons e t ih =>
    by_cases h : e.1 = rid <;>
      simp_all [regErase, regLookup, List.filter_cons, List.find?_cons]

theorem regLookup_kill_self (reg : Registry) (rid : Int) :
    regLookup (regKill reg rid) rid =
      (regLookup reg rid).map (fun p => Proc.mk p.pid false p.kill_raises) := by
  induction reg with
  | nil => rfl
  | cons e t ih =>
    by_cases h : e.1 = rid
    · simp [regKill, regLookup, List.find?_cons, h]
    · have hb : (e.1 == rid) = false := beq_eq_false_iff_ne.mpr h
      simp only [regKill, List.map_cons, if_neg h, regLookup, List.find?_cons, hb]
      simpa only [regKill, regLookup] using ih

/-! ## Claim theorems -/

/-- C2 amended: with a handle tracked under the id and a `kill()` that
does not raise, `cancel_request` forcibly terminates the handle and
returns `True`; if the `kill()` raises, `except Exception: pass` swallows
the error and the function falls through to `return False`, leaving the
handle as it was; with no handle it returns `False` and changes nothing
(and, being a total function, raises no error). The dispatcher's `cancel`
action always answers `success=true` with a human-readable outcome
string. -/
theorem c2_cancel_semantics (reg : Registry) (rid : Int) (env : QueryEnv) (msg : Message) :
    (∀ p, regLookup reg rid = some p →
      (p.kill_raises = false →
        (cancel_request reg rid).1 = true ∧
        regLookup (cancel_request reg rid).2 rid =
          some (Proc.mk p.pid false p.kill_raises)) ∧
      (p.kill_raises = true → cancel_request reg rid = (false, reg))) ∧
    (regLookup reg rid = none → cancel_request reg rid = (false, reg)) ∧
    (msg.action = some "cancel" →
      (handle_message env reg msg).1.success = true ∧
      (handle_message env reg msg).1.cancelled =
        some (cancel_request reg (msg.targetRequestId.getD 0)).1 ∧
      (handle_message env reg msg).1.result =
        some (if (cancel_request reg (msg.targetRequestId.getD 0)).1 then
          "Request cancelled" else "No active request found")) := by
  refine ⟨fun p hp => ⟨fun hk => ⟨?_, ?_⟩, fun hk => ?_⟩, fun h => ?_, fun h => ?_⟩
  · simp [cancel_request, hp, hk]
  · simp [cancel_request, hp, hk, regLookup_kill_self]
  · simp [cancel_request, hp, hk]
  · simp [cancel_request, h]
  · simp only [handle_message, h]
    simp [mkBase]

/-- C2 as stated is false: with a handle tracked under id 5 whose
`kill()` raises, the swallowed exception makes `cancel_request` fall
through to `return False` — `cancelled=false` despite a tracked handle,
against the claim that a tracked handle yields `cancelled=true`. -/
theorem c2_counterexample :
    (regLookup [((5 : Int), Proc.mk 77 true true)] 5).isSome = true ∧
    (cancel_request [((5 : Int), Proc.mk 77 true true)] 5).1 = false := by
  constructor <;> rfl

/-- C2 witness: a registry tracking id 5 with a kill that succeeds —
cancelling 5 kills the handle and reports `True`; the same registry with
a kill that raises reports `False` and is left unchanged; an empty
registry reports `False`; and the dispatcher's cancel action reports
`success=true`. -/
theorem c2_cancel_semantics_witness :
    ((cancel_request [((5 : Int), Proc.mk 77 true false)] 5).1 = true ∧
      regLookup (cancel_request [((5 : Int), Proc.mk 77 true false)] 5).2 5 =
        some (Proc.mk 77 false false)) ∧
    cancel_request [((5 : Int), Proc.mk 77 true true)] 5 =
      (false, [((5 : Int), Proc.mk 77 true true)]) ∧
    cancel_request ([] : Registry) 5 = (false, []) ∧
    (handle_message (QueryEnv.mk none 0 none (fun _ => RunOutcome.timedOut) 0 false) []
      (Message.mk (some "cancel") none none none none none none none none none)).1.success =
      true := by
  have h := c2_cancel_semantics [((5 : Int), Proc.mk 77 true false)] 5
    (QueryEnv.mk none 0 none (fun _ => RunOutcome.timedOut) 0 false)
    (Message.mk (some "cancel") none none none none none none none none none)
  have h2 := c2_cancel_semantics [((5 : Int), Proc.mk 77 true true)] 5
    (QueryEnv.mk none 0 none (fun _ => RunOutcome.timedOut) 0 false)
    (Message.mk (some "cancel") none none none none none none none none none)
  have h3 := c2_cancel_semantics ([] : Registry) 5
    (QueryEnv.mk none 0 none (fun _ => RunOutcome.timedOut) 0 false)
    (Message.mk (some "cancel") none none none none none none none none none)
  refine ⟨(h.1 (Proc.mk 77 true false) (by decide)).1 rfl, ?_, h3.2.1 rfl, (h3.2.2 rfl).1⟩
  exact (h2.1 (Proc.mk 77 true true) (by decide)).2 rfl

/-- C5. When the subprocess exits within the timeout, the executor
classifies by exit code: 0 gives `success=true` and the whitespace-trimmed
stdout as the response; a nonzero code gives `success=false` and a
response built from the exit code and the captured stderr. -/
theorem c5_exit_classification (path : String) (pid : Nat) (dur : Nat) (kr : Bool) (rc : Int)
    (out err : String) (reg : Registry) (prompt context : String) (rid : Int)
    (model : String) :
    ((query_claude (QueryEnv.mk (some path) pid none
        (fun _ => RunOutcome.completed rc out err) dur kr) reg prompt context rid model).1.success
      = decide (rc = 0)) ∧
    ((query_claude (QueryEnv.mk (some path) pid none
        (fun _ => RunOutcome.completed rc out err) dur kr) reg prompt context rid model).1.response
      = if rc = 0 then pyStrip out
        else "Error (exit code " ++ toString rc ++ "): " ++ err) := by
  by_cases h : rc = 0 <;> simp [query_claude, find_claude, h]

/-- C6. The executor validates the model against the allow-list
`{sonnet, opus, haiku}`: an out-of-list value is silently replaced by the
default alias `sonnet` (the request is still processed), the effective
alias is what the spawn specification carries to the CLI invocation, and
it is exposed in the result's `model_used` metadata; an in-list value is
used as given. -/
theorem c6_model_fallback (env : QueryEnv) (reg : Registry) (prompt context : String)
    (rid : Int) (model path : String) :
    (query_claude env reg prompt context rid model).1.model_used =
      (if model ∈ VALID_MODELS then model else "sonnet") ∧
    (querySpawnSpec path prompt context model).model =
      (if model ∈ VALID_MODELS then model else "sonnet") := by
  constructor
  · unfold query_claude
    cases find_claude env with
    | none => simp [pyModelAlias]
    | some p =>
      cases h : env.spawn_exc with
      | none =>
        simp only []
        cases hr : env.run (querySpawnSpec p prompt context model) with
        | completed rc out err => by_cases h0 : rc = 0 <;> simp [h, hr, h0, pyModelAlias]
        | timedOut => simp [h, hr, pyModelAlias]
        | raised m => simp [h, hr, pyModelAlias]
      | some e => cases e <;> simp [h, pyModelAlias]
  · simp [querySpawnSpec, pyModelAlias]

/-- C7. Whenever a subprocess is actually spawned (the executable was
found and the spawn did not raise), the executor unregisters the request
id exactly once — on exit-code classification, timeout kill, and internal
exception alike — and the final registry holds no entry for it. -/
theorem c7_unregister_once (env : QueryEnv) (reg : Registry) (prompt context : String)
    (rid : Int) (model path : String) (h1 : env.claude_path = some path)
    (h2 : env.spawn_exc = none) :
    (query_claude env reg prompt context rid model).2.2.countP
      (fun e => decide (e = Event.unregister rid)) = 1 ∧
    regLookup (query_claude env reg prompt context rid model).2.1 rid = none := by
  unfold query_claude find_claude
  rw [h1, h2]
  simp only []
  cases hr : env.run (querySpawnSpec path prompt context model) with
  | completed rc out err =>
    by_cases h0 : rc = 0 <;>
      simp [h0, List.countP_cons, regLookup_erase_self]
  | timedOut => simp [List.countP_cons, regLookup_erase_self]
  | raised m => simp [List.countP_cons, regLookup_erase_self]

/-- C7 witness: a concrete environment whose subprocess times out; the
trace unregisters id 3 exactly once and the registry ends without it. -/
theorem c7_unregister_once_witness :
    (QueryEnv.mk (some "claude") 9 none (fun _ => RunOutcome.timedOut) 44 false).claude_path =
      some "claude" ∧
    (QueryEnv.mk (some "claude") 9 none (fun _ => RunOutcome.timedOut) 44 false).spawn_exc = none ∧
    ((query_claude (QueryEnv.mk (some "claude") 9 none (fun _ => RunOutcome.timedOut) 44 false)
        [] "p" "c" 3 "opus").2.2.countP (fun e => decide (e = Event.unregister 3)) = 1 ∧
      regLookup (query_claude (QueryEnv.mk (some "claude") 9 none
        (fun _ => RunOutcome.timedOut) 44 false) [] "p" "c" 3 "opus").2.1 3 = none) :=
  ⟨rfl, rfl, c7_unregister_once _ [] "p" "c" 3 "opus" "claude" rfl rfl⟩

/-- C3. Every response the dispatcher produces satisfies the envelope
invariant: `success=true` implies the `result` field is present and the
`error` field absent; `success=false` implies an `error` field or a
`response` field describing the failure is present. -/
theorem c3_response_invariant (env : QueryEnv) (reg : Registry) (msg : Message) :
    ((handle_message env reg msg).1.success = true →
      (handle_message env reg msg).1.result.isSome = true ∧
      (handle_message env reg msg).1.error = none) ∧
    ((handle_message env reg msg).1.success = false →
      (handle_message env reg msg).1.error.isSome = true ∨
      (handle_message env reg msg).1.response.isSome = true) := by
  simp only [handle_message]
  split <;> simp [applyResult, mkBase]

/-- C3 witness: on a `ping` request `success` is `true` with `result`
present and `error` absent; on an unknown action `success` is `false`
with an `error` present. -/
theorem c3_response_invariant_witness :
    ((handle_message (QueryEnv.mk none 0 none (fun _ => RunOutcome.timedOut) 0 false) []
        (Message.mk (some "ping") none none none none none none none none none)).1.result.isSome
        = true ∧
      (handle_message (QueryEnv.mk none 0 none (fun _ => RunOutcome.timedOut) 0 false) []
        (Message.mk (some "ping") none none none none none none none none none)).1.error
        = none) ∧
    ((handle_message (QueryEnv.mk none 0 none (fun _ => RunOutcome.timedOut) 0 false) []
        (Message.mk (some "nope") none none none none none none none none none)).1.error.isSome
        = true ∨
      (handle_message (QueryEnv.mk none 0 none (fun _ => RunOutcome.timedOut) 0 false) []
        (Message.mk (some "nope") none none none none none none none none none)).1.response.isSome
        = true) :=
  ⟨(c3_response_invariant _ _ _).1 (by decide),
   (c3_response_invariant _ _ _).2 (by decide)⟩

/-- C8. On an action tag that is none of the recognized actions the
dispatcher — a total function, so it cannot raise — answers
`success=false` with an error message naming the unknown action. -/
theorem c8_unknown_action (env : QueryEnv) (reg : Registry) (msg : Message)
    (h : ∀ s, msg.action = some s → s ∉ recognizedActions) :
    (handle_message env reg msg).1.success = false ∧
    (handle_message env reg msg).1.error =
      some ("Unknown action: " ++ pyFmtOptStr msg.action) := by
  simp only [handle_message]
  split
  case _ heq => exact absurd (by simp [recognizedActions]) (h _ heq)
  case _ heq => exact absurd (by simp [recognizedActions]) (h _ heq)
  case _ heq => exact absurd (by simp [recognizedActions]) (h _ heq)
  case _ heq => exact absurd (by simp [recognizedActions]) (h _ heq)
  case _ heq => exact absurd (by simp [recognizedActions]) (h _ heq)
  case _ heq => exact absurd (by simp [recognizedActions]) (h _ heq)
  case _ heq => exact absurd (by simp [recognizedActions]) (h _ heq)
  case _ => simp [mkBase]

/-- C8 witness: the unrecognized action `frobnicate` yields
`success=false` and the error text naming it. -/
theorem c8_unknown_action_witness :
    (handle_message (QueryEnv.mk none 0 none (fun _ => RunOutcome.timedOut) 0 false) []
      (Message.mk (some "frobnicate") none none none none none none none none none)).1.success
      = false ∧
    (handle_message (QueryEnv.mk none 0 none (fun _ => RunOutcome.timedOut) 0 false) []
      (Message.mk (some "frobnicate") none none none none none none none none none)).1.error
      = some "Unknown action: frobnicate" := by
  have h := c8_unknown_action (QueryEnv.mk none 0 none (fun _ => RunOutcome.timedOut) 0 false) []
    (Message.mk (some "frobnicate") none none none none none none none none none)
    (by intro s hs; cases hs; decide)
  simpa [pyFmtOptStr] using h

/-- C9. A `ping` request is answered immediately: `result` is the literal
`"pong"`, `success=true`, and `claude_path` carries the resolved
executable path or the `NOT FOUND` marker; the query executor is not
invoked (no event is emitted and the registry is untouched), whether or
not the executable was located. -/
theorem c9_ping (env : QueryEnv) (reg : Registry) (msg : Message)
    (h : msg.action = some "ping") :
    (handle_message env reg msg).1.result = some "pong" ∧
    (handle_message env reg msg).1.success = true ∧
    (handle_message env reg msg).1.claude_path =
      some (pyOrStr env.claude_path "NOT FOUND") ∧
    (handle_message env reg msg).2.1 = reg ∧
    (handle_message env reg msg).2.2 = [] := by
  simp only [handle_message, h]
  simp [mkBase, find_claude]

/-- C9 witness: with no executable available, `ping` still answers
`pong`, `success=true`, and the not-found marker. -/
theorem c9_ping_witness :
    (handle_message (QueryEnv.mk none 0 none (fun _ => RunOutcome.timedOut) 0 false) []
      (Message.mk (some "ping") none none none none none none none none none)).1.result
      = some "pong" ∧
    (handle_message (QueryEnv.mk none 0 none (fun _ => RunOutcome.timedOut) 0 false) []
      (Message.mk (some "ping") none none none none none none none none none)).1.claude_path
      = some "NOT FOUND" := by
  have h := c9_ping (QueryEnv.mk none 0 none (fun _ => RunOutcome.timedOut) 0 false) []
    (Message.mk (some "ping") none none none none none none none none none) rfl
  exact ⟨h.1, by simpa [pyOrStr] using h.2.2.1⟩

/-- C10. A request without a `requestId` field is processed under id 0:
the response's `requestId` is 0, a query action invokes the executor with
request id 0 (which is then the registry tracking key), and a `cancel`
without `targetRequestId` cancels id 0. -/
theorem c10_default_request_id (env : QueryEnv) (reg : Registry) (msg : Message)
    (h : msg.requestId = none) :
    (handle_message env reg msg).1.requestId = 0 ∧
    (∀ a, msg.action = some a →
      a ∈ ["summarize", "ask", "explain", "analyze_network", "suggest_dom_changes"] →
      ∃ p c m, (handle_message env reg msg).2.2 =
        Event.queryCall p c 0 m :: (query_claude env reg p c 0 m).2.2) ∧
    (msg.action = some "cancel" → msg.targetRequestId = none →
      (handle_message env reg msg).1.cancelled = some (cancel_request reg 0).1 ∧
      (handle_message env reg msg).2.1 = (cancel_request reg 0).2) := by
  refine ⟨?_, fun a ha hmem => ?_, fun hc ht => ?_⟩
  · simp only [handle_message]
    split <;> simp [applyResult, mkBase, h]
  · have hmem2 : a = "summarize" ∨ a = "ask" ∨ a = "explain" ∨ a = "analyze_network" ∨
        a = "suggest_dom_changes" := by simpa using hmem
    rcases hmem2 with rfl | rfl | rfl | rfl | rfl
    · exact ⟨summarizePrompt, msg.content.getD "", msg.model.getD "sonnet",
        by simp [handle_message, ha, h]⟩
    · exact ⟨msg.question.getD "", askContext (msg.content.getD ""), msg.model.getD "sonnet",
        by simp [handle_message, ha, h]⟩
    · exact ⟨explainPrompt (msg.selection.getD ""), "", msg.model.getD "sonnet",
        by simp [handle_message, ha, h]⟩
    · exact ⟨analyzePrompt, String.mk (dumpsPretty 0 (msg.networkData.getD (Json.arr []))),
        msg.model.getD "sonnet", by simp [handle_message, ha, h]⟩
    · exact ⟨dscPrompt (msg.request.getD ""), dscContext (msg.html.getD ""),
        msg.model.getD "sonnet", by simp [handle_message, ha, h]⟩
  · simp only [handle_message, hc]
    simp [mkBase, h, ht]

/-- Length of the Python slice model. -/
theorem pyTake_length (s : String) (n : Nat) : (pyTake s n).length = min n s.length := by
  have h1 : (pyTake s n).length = (s.data.take n).length := rfl
  have h2 : s.length = s.data.length := rfl
  rw [h1, h2, List.length_take]

/-- Length of the `suggest_dom_changes` context: the 24-character header
plus the truncated HTML. -/
theorem dscContext_length (html : String) :
    (dscContext html).length = 24 + min 20000 html.length := by
  have h : (dscContext html).length =
      ("Current HTML structure:\n" : String).length + (pyTake html 20000).length :=
    String.length_append _ _
  have h24 : ("Current HTML structure:\n" : String).length = 24 := rfl
  rw [h, pyTake_length, h24]

/-- C1 amended: for `suggest_dom_changes` the HTML embedded in the
forwarded context is truncated to its first 20,000 characters — the
context is the fixed 24-character header `"Current HTML structure:\n"`
followed by exactly the first 20,000 characters of `html` (20,024
characters in total when the HTML is long enough) — and the context is a
function of that prefix alone, so no character of `html` beyond index
20,000 reaches the executor's input. -/
theorem c1_truncation (env : QueryEnv) (reg : Registry) (msg : Message) (html : String)
    (h1 : msg.action = some "suggest_dom_changes") (h2 : msg.html = some html) :
    (handle_message env reg msg).2.2.head? =
      some (Event.queryCall (dscPrompt (msg.request.getD ""))
        ("Current HTML structure:\n" ++ pyTake html 20000)
        (msg.requestId.getD 0) (msg.model.getD "sonnet")) ∧
    dscContext html = dscContext (pyTake html 20000) ∧
    (20000 ≤ html.length → (dscContext html).length = 20024) := by
  refine ⟨?_, ?_, fun hlong => ?_⟩
  · simp [handle_message, h1, h2, dscContext]
  · have h3 : pyTake (pyTake html 20000) 20000 = pyTake html 20000 := by
      unfold pyTake
      congr 1
      show List.take 20000 (List.take 20000 html.data) = List.take 20000 html.data
      rw [List.take_take, Nat.min_self]
    unfold dscContext
    rw [h3]
  · rw [dscContext_length]
    omega

/-- C1 as stated is false: for `suggest_dom_changes` with an `html` field
of 20,001 characters, the context string forwarded to the query executor
has 20,024 characters — the fixed 24-character header
`"Current HTML structure:\n"` plus the first 20,000 characters of the
HTML — not exactly 20,000. -/
theorem c1_counterexample :
    (((handle_message (QueryEnv.mk none 0 none (fun _ => RunOutcome.timedOut) 0 false) []
        (Message.mk (some "suggest_dom_changes") none none none none none none
          (some (String.mk (List.replicate 20001 'a'))) none none)).2.2.head?.bind
      eventContext).map String.length = some 20024) ∧
    ¬ (((handle_message (QueryEnv.mk none 0 none (fun _ => RunOutcome.timedOut) 0 false) []
        (Message.mk (some "suggest_dom_changes") none none none none none none
          (some (String.mk (List.replicate 20001 'a'))) none none)).2.2.head?.bind
      eventContext).map String.length = some 20000) := by
  have hbig : (String.mk (List.replicate 20001 'a')).length = 20001 := by
    have h1 : (String.mk (List.replicate 20001 'a')).length =
        (List.replicate 20001 'a').length := rfl
    rw [h1, List.length_replicate]
  have hlen : (dscContext (String.mk (List.replicate 20001 'a'))).length = 20024 := by
    rw [dscContext_length, hbig]
    norm_num
  have hhead0 : ∀ html : String,
      (handle_message (QueryEnv.mk none 0 none (fun _ => RunOutcome.timedOut) 0 false) []
        (Message.mk (some "suggest_dom_changes") none none none none none none
          (some html) none none)).2.2.head? =
        some (Event.queryCall (dscPrompt "") (dscContext html) 0 "sonnet") := by
    intro html
    simp [handle_message]
  rw [hhead0 (String.mk (List.replicate 20001 'a'))]
  constructor
  · simp only [Option.bind, eventContext, Option.map, hlen]
  · simp only [Option.bind, eventContext, Option.map, hlen]
    intro hcontra
    exact absurd (Option.some.inj hcontra) (by omega)

/-- C1 witness: on a short HTML the context is the header plus the whole
(3-character) HTML. -/
theorem c1_truncation_witness :
    (handle_message (QueryEnv.mk none 0 none (fun _ => RunOutcome.timedOut) 0 false) []
      (Message.mk (some "suggest_dom_changes") none none none none none none
        (some "abc") none none)).2.2.head? =
      some (Event.queryCall (dscPrompt "") ("Current HTML structure:\n" ++ pyTake "abc" 20000)
        0 "sonnet") := by
  exact (c1_truncation _ [] _ "abc" rfl rfl).1

/-- C10 witness: a `cancel` message with neither `requestId` nor
`targetRequestId` answers with `requestId` 0 and cancels id 0 (no handle
is tracked, so `cancelled=false`). -/
theorem c10_default_request_id_witness :
    (handle_message (QueryEnv.mk none 0 none (fun _ => RunOutcome.timedOut) 0 false) []
      (Message.mk (some "cancel") none none none none none none none none none)).1.requestId
      = 0 ∧
    (handle_message (QueryEnv.mk none 0 none (fun _ => RunOutcome.timedOut) 0 false) []
      (Message.mk (some "cancel") none none none none none none none none none)).1.cancelled
      = some false := by
  have h := c10_default_request_id (QueryEnv.mk none 0 none (fun _ => RunOutcome.timedOut) 0 false)
    [] (Message.mk (some "cancel") none none none none none none none none none) rfl
  exact ⟨h.1, by simpa [cancel_request, regLookup] using (h.2.2 rfl rfl).1⟩

/-! ## Round-trip: digits and numbers -/

theorem toNat_digitChar (d : Nat) (h : d < 10) : (digitChar d).toNat = 48 + d := by
  interval_cases d <;> decide

theorem isDigit_digitChar (d : Nat) (h : d < 10) : (digitChar d).isDigit = true := by
  interval_cases d <;> decide

theorem hexVal_hexDigitChar (d : Nat) (h : d < 16) : hexVal (hexDigitChar d) = some d := by
  interval_cases d <;> decide

theorem hex4Val_hex4 (n : Nat) (h : n < 65536) :
    hex4Val (hexDigitChar (n / 4096 % 16)) (hexDigitChar (n / 256 % 16))
      (hexDigitChar (n / 16 % 16)) (hexDigitChar (n % 16)) = some n := by
  rw [hex4Val, hexVal_hexDigitChar _ (by omega), hexVal_hexDigitChar _ (by omega),
    hexVal_hexDigitChar _ (by omega), hexVal_hexDigitChar _ (by omega)]
  simp only []
  congr 1
  omega

theorem isDigit_not_ws (c : Char) (h : c.isDigit = true) : jsonWsB c = false := by
  unfold jsonWsB
  have h1 : c ≠ ' ' := fun hc => absurd h (by rw [hc]; decide)
  have h2 : c ≠ '\t' := fun hc => absurd h (by rw [hc]; decide)
  have h3 : c ≠ '\n' := fun hc => absurd h (by rw [hc]; decide)
  have h4 : c ≠ '\r' := fun hc => absurd h (by rw [hc]; decide)
  simp [h1, h2, h3, h4]

theorem isDigit_ne_delim (c : Char) (h : c.isDigit = true) :
    ∀ d ∈ ['n', 't', 'f', '"', '[', '\x7b', '-', ']', ',', '\x7d', ':', '\\'], c ≠ d := by
  intro d hd
  fin_cases hd <;> exact fun hc => absurd h (by rw [hc]; decide)

theorem natDump_ne_nil (n : Nat) : natDump n ≠ [] := by
  rw [natDump]
  split <;> simp

theorem natDump_digits (n : Nat) : ∀ c ∈ natDump n, c.isDigit = true := by
  induction n using Nat.strong_induction_on with
  | _ n ih =>
    by_cases h : n < 10
    · rw [natDump, dif_pos h]
      intro c hc
      simp only [List.mem_singleton] at hc
      subst hc
      exact isDigit_digitChar _ h
    · rw [natDump, dif_neg h]
      intro c hc
      rcases List.mem_append.mp hc with hc | hc
      · exact ih (n / 10) (Nat.div_lt_self (by omega) (by omega)) c hc
      · simp only [List.mem_singleton] at hc
        subst hc
        exact isDigit_digitChar _ (Nat.mod_lt _ (by omega))

theorem foldl_digit_natDump (n : Nat) : ∀ a,
    List.foldl (fun a c => 10 * a + (c.toNat - 48)) a (natDump n) =
    a * 10 ^ (natDump n).length + n := by
  induction n using Nat.strong_induction_on with
  | _ n ih =>
    intro a
    by_cases h : n < 10
    · rw [natDump, dif_pos h]
      simp [toNat_digitChar n h]
      omega
    · rw [natDump, dif_neg h]
      rw [List.foldl_append, ih (n / 10) (Nat.div_lt_self (by omega) (by omega)) a]
      simp only [List.foldl_cons, List.foldl_nil, List.length_append, List.length_cons,
        List.length_nil, toNat_digitChar (n % 10) (Nat.mod_lt _ (by omega))]
      have h1 : 48 + n % 10 - 48 = n % 10 := by omega
      rw [h1, pow_succ]
      have h2 : 10 * (a * 10 ^ (natDump (n / 10)).length + n / 10) + n % 10 =
          10 * (a * 10 ^ (natDump (n / 10)).length) + (10 * (n / 10) + n % 10) := by ring
      rw [h2]
      have h3 : 10 * (n / 10) + n % 10 = n := by omega
      rw [h3]
      ring

theorem digitVal_natDump (n : Nat) : digitVal (natDump n) = n := by
  unfold digitVal
  rw [foldl_digit_natDump n 0]
  simp

theorem takeWhile_append_all (p : Char → Bool) (l r : List Char)
    (hl : ∀ c ∈ l, p c = true) (hr : ∀ c, r.head? = some c → p c = false) :
    (l ++ r).takeWhile p = l ∧ (l ++ r).dropWhile p = r := by
  induction l with
  | nil =>
    simp only [List.nil_append]
    cases r with
    | nil => simp
    | cons c t =>
      have hc := hr c rfl
      simp [List.takeWhile_cons, List.dropWhile_cons, hc]
  | cons c t ih =>
    have hc := hl c (by simp)
    have ih2 := ih (fun x hx => hl x (by simp [hx]))
    simp [List.takeWhile_cons, List.dropWhile_cons, hc, ih2.1, ih2.2]

theorem parseDigits_natDump (n : Nat) (rest : List Char)
    (hr : ∀ c, rest.head? = some c → c.isDigit = false) :
    parseDigits (natDump n ++ rest) = some (n, rest) := by
  have h := takeWhile_append_all (fun c => c.isDigit) (natDump n) rest (natDump_digits n) hr
  unfold parseDigits
  simp only [h.1, h.2]
  have hne : (natDump n).isEmpty = false := by
    cases hh : natDump n with
    | nil => exact absurd hh (natDump_ne_nil n)
    | cons a b => rfl
  simp [hne, digitVal_natDump]

/-! ## Round-trip: strings -/

theorem psb_quote (rest : List Char) : parseStringBody ('"' :: rest) = some ([], rest) := by
  conv_lhs => rw [parseStringBody.eq_def]
  simp

theorem psb_simple (e c2 : Char) (h : simpleEsc e = some c2) (r : List Char) :
    parseStringBody ('\\' :: e :: r) = (parseStringBody r).map (fun p => (c2 :: p.1, p.2)) := by
  conv_lhs => rw [parseStringBody.eq_def]
  simp [h]

theorem psb_u (r : List Char) (c2 : Char) (k : Nat) (h : parseUEsc r = some (c2, k)) :
    parseStringBody ('\\' :: 'u' :: r) =
      (parseStringBody (r.drop k)).map (fun p => (c2 :: p.1, p.2)) := by
  conv_lhs => rw [parseStringBody.eq_def]
  have hs : simpleEsc 'u' = none := by decide
  simp [hs, h]

theorem psb_other (c : Char) (rest : List Char) (h1 : c ≠ '"') (h2 : c ≠ '\\')
    (h3 : ¬ c.toNat < 0x20) :
    parseStringBody (c :: rest) = (parseStringBody rest).map (fun p => (c :: p.1, p.2)) := by
  conv_lhs => rw [parseStringBody.eq_def]
  simp [h1, h2, h3]

theorem parseUEsc_bmp (n : Nat) (h16 : n < 65536) (hval : n < 0xD800 ∨ 0xE000 ≤ n)
    (X : List Char) : parseUEsc (hex4 n ++ X) = some (Char.ofNat n, 4) := by
  unfold parseUEsc
  simp only [hex4, List.cons_append, List.nil_append]
  rw [hex4Val_hex4 n h16]
  simp only [if_pos hval]

theorem parseUEsc_pair (hi lo : Nat) (h1 : 0xD800 ≤ hi) (h2 : hi < 0xDC00)
    (h3 : 0xDC00 ≤ lo) (h4 : lo < 0xE000) (X : List Char) :
    parseUEsc (hex4 hi ++ ('\\' :: 'u' :: (hex4 lo ++ X))) =
      some (Char.ofNat (0x10000 + 0x400 * (hi - 0xD800) + (lo - 0xDC00)), 10) := by
  unfold parseUEsc
  simp only [hex4, List.cons_append, List.nil_append]
  rw [hex4Val_hex4 hi (by omega)]
  simp only [if_neg (by omega : ¬ (hi < 0xD800 ∨ 0xE000 ≤ hi)), if_pos (by omega : hi < 0xDC00),
    if_pos (show ('\\' : Char) = '\\' ∧ ('u' : Char) = 'u' from And.intro rfl rfl)]
  rw [hex4Val_hex4 lo (by omega)]
  simp only [if_pos (And.intro h3 h4), and_self, if_true]

theorem parseStringBody_escape (s rest : List Char) :
    parseStringBody (escapeList s ++ '"' :: rest) = some (s, rest) := by
  induction s with
  | nil =>
    simp only [escapeList, List.nil_append]
    exact psb_quote rest
  | cons c cs ih =>
    simp only [escapeList, List.append_assoc]
    by_cases h1 : c = '"'
    · subst h1
      have he : escChar '"' = ['\\', '"'] := by decide
      rw [he]
      simp only [List.cons_append, List.nil_append]
      rw [psb_simple '"' '"' (by decide), ih]
      rfl
    by_cases h2 : c = '\\'
    · subst h2
      have he : escChar '\\' = ['\\', '\\'] := by decide
      rw [he]
      simp only [List.cons_append, List.nil_append]
      rw [psb_simple '\\' '\\' (by decide), ih]
      rfl
    by_cases h3 : c = '\x08'
    · subst h3
      have he : escChar '\x08' = ['\\', 'b'] := by decide
      rw [he]
      simp only [List.cons_append, List.nil_append]
      rw [psb_simple 'b' '\x08' (by decide), ih]
      rfl
    by_cases h4 : c = '\t'
    · subst h4
      have he : escChar '\t' = ['\\', 't'] := by decide
      rw [he]
      simp only [List.cons_append, List.nil_append]
      rw [psb_simple 't' '\t' (by decide), ih]
      rfl
    by_cases h5 : c = '\n'
    · subst h5
      have he : escChar '\n' = ['\\', 'n'] := by decide
      rw [he]
      simp only [List.cons_append, List.nil_append]
      rw [psb_simple 'n' '\n' (by decide), ih]
      rfl
    by_cases h6 : c = '\x0c'
    · subst h6
      have he : escChar '\x0c' = ['\\', 'f'] := by decide
      rw [he]
      simp only [List.cons_append, List.nil_append]
      rw [psb_simple 'f' '\x0c' (by decide), ih]
      rfl
    by_cases h7 : c = '\r'
    · subst h7
      have he : escChar '\r' = ['\\', 'r'] := by decide
      rw [he]
      simp only [List.cons_append, List.nil_append]
      rw [psb_simple 'r' '\r' (by decide), ih]
      rfl
    rw [escChar, if_neg h1, if_neg h2, if_neg h3, if_neg h4, if_neg h5, if_neg h6, if_neg h7]
    by_cases h8 : c.toNat < 0x20
    · rw [if_pos h8]
      simp only [List.cons_append]
      rw [psb_u _ _ _ (parseUEsc_bmp c.toNat (by omega) (Or.inl (by omega)) _)]
      have hdrop : ∀ X : List Char, (hex4 c.toNat ++ X).drop 4 = X := by
        intro X
        simp [hex4]
      rw [hdrop, ih]
      simp [Char.ofNat_toNat]
    by_cases h10 : c.toNat < 0x7f
    · rw [if_neg h8, if_pos h10]
      simp only [List.cons_append, List.nil_append]
      rw [psb_other c _ h1 h2 h8, ih]
      rfl
    by_cases h11 : c.toNat < 0x10000
    · rw [if_neg h8, if_neg h10, if_pos h11]
      simp only [List.cons_append]
      have hval : c.toNat < 0xD800 ∨ 0xE000 ≤ c.toNat := by
        have hv : c.toNat < 0xD800 ∨ (0xDFFF < c.toNat ∧ c.toNat < 0x110000) := c.valid
        omega
      rw [psb_u _ _ _ (parseUEsc_bmp c.toNat (by omega) hval _)]
      have hdrop : ∀ X : List Char, (hex4 c.toNat ++ X).drop 4 = X := by
        intro X
        simp [hex4]
      rw [hdrop, ih]
      simp [Char.ofNat_toNat]
    · rw [if_neg h8, if_neg h10, if_neg h11]
      have hup : c.toNat < 0x110000 := by
        have hv : c.toNat < 0xD800 ∨ (0xDFFF < c.toNat ∧ c.toNat < 0x110000) := c.valid
        omega
      simp only [List.cons_append, List.append_assoc]
      rw [psb_u _ _ _ (parseUEsc_pair (0xD800 + (c.toNat - 0x10000) / 0x400)
        (0xDC00 + (c.toNat - 0x10000) % 0x400) (by omega) (by omega) (by omega) (by omega) _)]
      have hdrop : ∀ X : List Char,
          (hex4 (0xD800 + (c.toNat - 0x10000) / 0x400) ++
            ('\\' :: 'u' :: (hex4 (0xDC00 + (c.toNat - 0x10000) % 0x400) ++ X))).drop 10 = X := by
        intro X
        simp [hex4]
      have harith : 0x10000 + 0x400 * (0xD800 + (c.toNat - 0x10000) / 0x400 - 0xD800) +
          (0xDC00 + (c.toNat - 0x10000) % 0x400 - 0xDC00) = c.toNat := by omega
      rw [hdrop, ih, harith, Char.ofNat_toNat]
      rfl

/-! ## Round-trip: heads of serialized values -/

theorem skipWs_cons (c : Char) (l : List Char) (h : jsonWsB c = false) :
    skipWs (c :: l) = c :: l := by
  simp [skipWs, List.dropWhile_cons, h]

theorem natDump_head (n : Nat) : ∃ c t, natDump n = c :: t ∧ c.isDigit = true := by
  obtain ⟨c, t, hct⟩ := List.exists_cons_of_ne_nil (natDump_ne_nil n)
  exact ⟨c, t, hct, natDump_digits n c (by rw [hct]; simp)⟩

theorem dumps_head_cases (v : Json) : ∃ c t, dumps v = c :: t ∧
    (c = 'n' ∨ c = 't' ∨ c = 'f' ∨ c = '"' ∨ c = '[' ∨ c = '\x7b' ∨ c = '-' ∨
     c.isDigit = true) := by
  cases v with
  | null => exact ⟨'n', _, rfl, by simp⟩
  | bool b =>
    cases b
    · exact ⟨'f', _, rfl, by simp⟩
    · exact ⟨'t', _, rfl, by simp⟩
  | int n =>
    by_cases h : n < 0
    · refine ⟨'-', natDump (-n).toNat, ?_, by simp⟩
      show dumps (.int n) = '-' :: natDump (-n).toNat
      rw [dumps, intDump, if_pos h]
    · obtain ⟨c, t, hct, hd⟩ := natDump_head n.toNat
      refine ⟨c, t, ?_, by simp [hd]⟩
      show dumps (.int n) = c :: t
      rw [dumps, intDump, if_neg h, hct]
  | str s => exact ⟨'"', _, rfl, by simp⟩
  | arr xs => cases xs <;> exact ⟨'[', _, rfl, by simp⟩
  | obj kvs => cases kvs <;> exact ⟨'\x7b', _, rfl, by simp⟩

theorem dumps_head_props (v : Json) : ∃ c t, dumps v = c :: t ∧ jsonWsB c = false ∧
    c ≠ ']' ∧ c ≠ '\x7d' ∧ c ≠ ',' ∧ c ≠ ':' := by
  obtain ⟨c, t, hct, hd⟩ := dumps_head_cases v
  refine ⟨c, t, hct, ?_, ?_, ?_, ?_, ?_⟩ <;>
    rcases hd with rfl | rfl | rfl | rfl | rfl | rfl | rfl | hdig <;>
    first
      | decide
      | exact isDigit_not_ws _ hdig
      | exact isDigit_ne_delim _ hdig _ (by decide)

/-! ## Round-trip: integer values -/

theorem parseVal_intDump (f : Nat) (n : Int) (rest : List Char)
    (hr : ∀ c, rest.head? = some c → c.isDigit = false) :
    parseVal (f + 1) (intDump n ++ rest) = some (.int n, rest) := by
  by_cases hn : n < 0
  · rw [intDump, if_pos hn]
    simp only [List.cons_append]
    simp only [parseVal]
    norm_num
    rw [parseDigits_natDump _ rest hr]
    have ht : (((-n).toNat : Int)) = -n := Int.toNat_of_nonneg (by omega)
    simp [ht]
  · obtain ⟨c, t, hct, hdig⟩ := natDump_head n.toNat
    have hne := isDigit_ne_delim c hdig
    rw [intDump, if_neg hn, hct]
    simp only [List.cons_append]
    simp only [parseVal]
    rw [if_neg (hne 'n' (by decide)), if_neg (hne 't' (by decide)),
      if_neg (hne 'f' (by decide)), if_neg (hne '"' (by decide)),
      if_neg (hne '[' (by decide)), if_neg (hne '\x7b' (by decide)),
      if_neg (hne '-' (by decide)), if_pos hdig]
    have heq : c :: (t ++ rest) = natDump n.toNat ++ rest := by rw [hct, List.cons_append]
    rw [heq, parseDigits_natDump _ rest hr]
    have ht : ((n.toNat : Int)) = n := Int.toNat_of_nonneg (by omega)
    simp [ht]

/-! ## Round-trip: main induction -/

theorem sizeJ_pos (v : Json) : 1 ≤ sizeJ v := by
  cases v <;> simp [sizeJ]

theorem sizeItems_pos (xs : List Json) : 1 ≤ sizeItems xs := by
  cases xs <;> simp [sizeItems]

theorem sizeMembers_pos (kvs : List (List Char × Json)) : 1 ≤ sizeMembers kvs := by
  cases kvs <;> simp [sizeMembers]

theorem arrTail_head_not_digit (xs : List Json) (rest : List Char) :
    ∀ c, (dumpsArrTail xs ++ ']' :: rest).head? = some c → c.isDigit = false := by
  cases xs with
  | nil =>
    intro c hc
    simp [dumpsArrTail] at hc
    subst hc
    decide
  | cons x xs2 =>
    intro c hc
    simp [dumpsArrTail] at hc
    subst hc
    decide

theorem objTail_head_not_digit (kvs : List (List Char × Json)) (rest : List Char) :
    ∀ c, (dumpsObjTail kvs ++ '\x7d' :: rest).head? = some c → c.isDigit = false := by
  cases kvs with
  | nil =>
    intro c hc
    simp [dumpsObjTail] at hc
    subst hc
    decide
  | cons kv kvs2 =>
    intro c hc
    simp [dumpsObjTail] at hc
    subst hc
    decide

theorem pv_str_step (f : Nat) (l : List Char) :
    parseVal (f + 1) ('"' :: l) = (parseStringBody l).map (fun p => (Json.str p.1, p.2)) := by
  simp [parseVal]

theorem pv_arr_step (f : Nat) (l : List Char) :
    parseVal (f + 1) ('[' :: l) =
      (match skipWs l with
       | [] => none
       | c2 :: r2 =>
         if c2 = ']' then some (Json.arr [], r2)
         else
           match parseVal f (c2 :: r2) with
           | none => none
           | some (v, r3) =>
             match parseArrTail f r3 with
             | none => none
             | some (vs, r4) => some (Json.arr (v :: vs), r4)) := by
  simp [parseVal]

theorem pv_obj_step (f : Nat) (l : List Char) :
    parseVal (f + 1) ('\x7b' :: l) =
      (match skipWs l with
       | [] => none
       | c2 :: r2 =>
         if c2 = '\x7d' then some (Json.obj [], r2)
         else if c2 = '"' then
           match parseStringBody r2 with
           | none => none
           | some (k, r3) =>
             match skipWs r3 with
             | [] => none
             | c3 :: r4 =>
               if c3 = ':' then
                 match parseVal f (skipWs r4) with
                 | none => none
                 | some (v, r5) =>
                   match parseObjTail f r5 with
                   | none => none
                   | some (kvs, r6) => some (Json.obj ((k, v) :: kvs), r6)
               else none
         else none) := by
  simp [parseVal]

theorem pat_close (f : Nat) (r : List Char) : parseArrTail (f + 1) (']' :: r) = some ([], r) := by
  simp [parseArrTail, skipWs, List.dropWhile_cons, jsonWsB]

theorem pat_comma (f : Nat) (l : List Char) :
    parseArrTail (f + 1) (',' :: l) =
      (match parseVal f (skipWs l) with
       | none => none
       | some (v, r2) =>
         match parseArrTail f r2 with
         | none => none
         | some (vs, r3) => some (v :: vs, r3)) := by
  simp [parseArrTail, skipWs, List.dropWhile_cons, jsonWsB]

theorem pot_close (f : Nat) (r : List Char) :
    parseObjTail (f + 1) ('\x7d' :: r) = some ([], r) := by
  simp [parseObjTail, skipWs, List.dropWhile_cons, jsonWsB]

theorem pot_comma (f : Nat) (l : List Char) :
    parseObjTail (f + 1) (',' :: l) =
      (match skipWs l with
       | [] => none
       | c2 :: r2 =>
         if c2 = '"' then
           match parseStringBody r2 with
           | none => none
           | some (k, r3) =>
             match skipWs r3 with
             | [] => none
             | c3 :: r4 =>
               if c3 = ':' then
                 match parseVal f (skipWs r4) with
                 | none => none
                 | some (v, r5) =>
                   match parseObjTail f r5 with
                   | none => none
                   | some (kvs, r6) => some ((k, v) :: kvs, r6)
               else none
         else none) := by
  simp [parseObjTail, skipWs, List.dropWhile_cons, jsonWsB]

theorem parse_dumps_main : ∀ N : Nat,
    (∀ v : Json, sizeJ v ≤ N → ∀ fuel rest, sizeJ v ≤ fuel →
      (∀ c, rest.head? = some c → c.isDigit = false) →
      parseVal fuel (dumps v ++ rest) = some (v, rest)) ∧
    (∀ xs : List Json, sizeItems xs ≤ N → ∀ fuel rest, sizeItems xs ≤ fuel →
      parseArrTail fuel (dumpsArrTail xs ++ ']' :: rest) = some (xs, rest)) ∧
    (∀ kvs : List (List Char × Json), sizeMembers kvs ≤ N → ∀ fuel rest,
      sizeMembers kvs ≤ fuel →
      parseObjTail fuel (dumpsObjTail kvs ++ '\x7d' :: rest) = some (kvs, rest)) := by
  intro N
  induction N using Nat.strong_induction_on with
  | _ N ih =>
    refine ⟨?_, ?_, ?_⟩
    · intro v hvN fuel rest hfuel hrest
      obtain ⟨f, rfl⟩ : ∃ f, fuel = f + 1 :=
        ⟨fuel - 1, by have := sizeJ_pos v; omega⟩
      cases v with
      | null => simp [dumps, parseVal]
      | bool b => cases b <;> simp [dumps, parseVal]
      | int n =>
        simp only [dumps]
        exact parseVal_intDump f n rest hrest
      | str s =>
        simp only [dumps, List.cons_append, List.append_assoc, List.singleton_append]
        rw [pv_str_step, parseStringBody_escape]
        rfl
      | arr xs =>
        cases xs with
        | nil => simp [dumps, parseVal, skipWs, List.dropWhile_cons, jsonWsB]
        | cons x xs2 =>
          obtain ⟨c, t, hct, hws, hrb, _hob, _hcm, _hcl⟩ := dumps_head_props x
          have e1 : sizeJ (Json.arr (x :: xs2)) = 1 + (1 + max (sizeJ x) (sizeItems xs2)) := by
            simp [sizeJ, sizeItems]
          have hxpos := sizeJ_pos x
          have hipos := sizeItems_pos xs2
          have happ := (ih (sizeJ x) (by omega)).1 x (le_refl _) f
            (dumpsArrTail xs2 ++ ']' :: rest) (by omega)
            (arrTail_head_not_digit xs2 rest)
          have happ2 : parseVal f (c :: (t ++ (dumpsArrTail xs2 ++ ']' :: rest))) =
              some (x, dumpsArrTail xs2 ++ ']' :: rest) := by
            rw [← List.cons_append, ← hct]
            exact happ
          have htail := (ih (sizeItems xs2) (by omega)).2.1 xs2 (le_refl _) f rest (by omega)
          simp only [dumps, List.cons_append, List.append_assoc, List.singleton_append,
            List.nil_append]
          rw [pv_arr_step]
          rw [hct]
          simp only [List.cons_append]
          rw [skipWs_cons _ _ hws]
          simp only [if_neg hrb, happ2, htail]
      | obj kvs =>
        cases kvs with
        | nil => simp [dumps, parseVal, skipWs, List.dropWhile_cons, jsonWsB]
        | cons kv kvs2 =>
          obtain ⟨k, v2⟩ := kv
          obtain ⟨c, t, hct, hws, _hrb, _hob, _hcm, _hcl⟩ := dumps_head_props v2
          have e1 : sizeJ (Json.obj ((k, v2) :: kvs2)) =
              1 + (1 + max (sizeJ v2) (sizeMembers kvs2)) := by
            simp [sizeJ, sizeMembers]
          have hxpos := sizeJ_pos v2
          have hipos := sizeMembers_pos kvs2
          have happ := (ih (sizeJ v2) (by omega)).1 v2 (le_refl _) f
            (dumpsObjTail kvs2 ++ '\x7d' :: rest) (by omega)
            (objTail_head_not_digit kvs2 rest)
          have happ2 : parseVal f (c :: (t ++ (dumpsObjTail kvs2 ++ '\x7d' :: rest))) =
              some (v2, dumpsObjTail kvs2 ++ '\x7d' :: rest) := by
            rw [← List.cons_append, ← hct]
            exact happ
          have htail := (ih (sizeMembers kvs2) (by omega)).2.2 kvs2 (le_refl _) f rest
            (by omega)
          simp only [dumps, dumpsMember, List.cons_append, List.append_assoc,
            List.singleton_append, List.nil_append]
          rw [pv_obj_step]
          rw [skipWs_cons _ _ (by decide)]
          simp only [if_neg (show ¬('"' : Char) = '\x7d' from by decide),
            if_pos (rfl : ('"' : Char) = '"'), parseStringBody_escape]
          rw [skipWs_cons _ _ (by decide)]
          simp only [if_pos (rfl : (':' : Char) = ':')]
          have hsk : skipWs (dumps v2 ++ (dumpsObjTail kvs2 ++ '\x7d' :: rest)) =
              c :: (t ++ (dumpsObjTail kvs2 ++ '\x7d' :: rest)) := by
            rw [hct, List.cons_append, skipWs_cons _ _ hws]
          rw [hsk]
          simp only [happ2, htail, if_true]
    · intro xs hxN fuel rest hfuel
      obtain ⟨f, rfl⟩ : ∃ f, fuel = f + 1 :=
        ⟨fuel - 1, by have := sizeItems_pos xs; omega⟩
      cases xs with
      | nil =>
        simp only [dumpsArrTail, List.nil_append]
        exact pat_close f rest
      | cons x xs2 =>
        obtain ⟨c, t, hct, hws, _hrb, _hob, _hcm, _hcl⟩ := dumps_head_props x
        have e1 : sizeItems (x :: xs2) = 1 + max (sizeJ x) (sizeItems xs2) := by
          simp [sizeItems]
        have hxpos := sizeJ_pos x
        have hipos := sizeItems_pos xs2
        have happ := (ih (sizeJ x) (by omega)).1 x (le_refl _) f
          (dumpsArrTail xs2 ++ ']' :: rest) (by omega)
          (arrTail_head_not_digit xs2 rest)
        have happ2 : parseVal f (c :: (t ++ (dumpsArrTail xs2 ++ ']' :: rest))) =
            some (x, dumpsArrTail xs2 ++ ']' :: rest) := by
          rw [← List.cons_append, ← hct]
          exact happ
        have htail := (ih (sizeItems xs2) (by omega)).2.1 xs2 (le_refl _) f rest (by omega)
        simp only [dumpsArrTail, List.cons_append, List.append_assoc, List.singleton_append,
          List.nil_append]
        rw [pat_comma]
        have hsk : skipWs (dumps x ++ (dumpsArrTail xs2 ++ ']' :: rest)) =
            c :: (t ++ (dumpsArrTail xs2 ++ ']' :: rest)) := by
          rw [hct, List.cons_append, skipWs_cons _ _ hws]
        rw [hsk]
        simp only [happ2, htail]
    · intro kvs hkN fuel rest hfuel
      obtain ⟨f, rfl⟩ : ∃ f, fuel = f + 1 :=
        ⟨fuel - 1, by have := sizeMembers_pos kvs; omega⟩
      cases kvs with
      | nil =>
        simp only [dumpsObjTail, List.nil_append]
        exact pot_close f rest
      | cons kv kvs2 =>
        obtain ⟨k, v2⟩ := kv
        obtain ⟨c, t, hct, hws, _hrb, _hob, _hcm, _hcl⟩ := dumps_head_props v2
        have e1 : sizeMembers ((k, v2) :: kvs2) = 1 + max (sizeJ v2) (sizeMembers kvs2) := by
          simp [sizeMembers]
        have hxpos := sizeJ_pos v2
        have hipos := sizeMembers_pos kvs2
        have happ := (ih (sizeJ v2) (by omega)).1 v2 (le_refl _) f
          (dumpsObjTail kvs2 ++ '\x7d' :: rest) (by omega)
          (objTail_head_not_digit kvs2 rest)
        have happ2 : parseVal f (c :: (t ++ (dumpsObjTail kvs2 ++ '\x7d' :: rest))) =
            some (v2, dumpsObjTail kvs2 ++ '\x7d' :: rest) := by
          rw [← List.cons_append, ← hct]
          exact happ
        have htail := (ih (sizeMembers kvs2) (by omega)).2.2 kvs2 (le_refl _) f rest
          (by omega)
        simp only [dumpsObjTail, dumpsMember, List.cons_append, List.append_assoc,
          List.singleton_append, List.nil_append]
        rw [pot_comma]
        rw [skipWs_cons _ _ (by decide)]
        simp only [if_pos (rfl : ('"' : Char) = '"'), parseStringBody_escape]
        rw [skipWs_cons _ _ (by decide)]
        simp only [if_pos (rfl : (':' : Char) = ':')]
        have hsk : skipWs (dumps v2 ++ (dumpsObjTail kvs2 ++ '\x7d' :: rest)) =
            c :: (t ++ (dumpsObjTail kvs2 ++ '\x7d' :: rest)) := by
          rw [hct, List.cons_append, skipWs_cons _ _ hws]
        rw [hsk]
        simp only [happ2, htail, if_true]

/-! ## Round-trip: the parser fuel used by `loads` suffices -/

theorem size_le_dumps : ∀ N : Nat,
    (∀ v : Json, sizeJ v ≤ N → sizeJ v ≤ (dumps v).length + 1) ∧
    (∀ xs : List Json, sizeItems xs ≤ N → sizeItems xs ≤ (dumpsArrTail xs).length + 1) ∧
    (∀ kvs : List (List Char × Json), sizeMembers kvs ≤ N →
      sizeMembers kvs ≤ (dumpsObjTail kvs).length + 1) := by
  intro N
  induction N using Nat.strong_induction_on with
  | _ N ih =>
    refine ⟨?_, ?_, ?_⟩
    · intro v hvN
      cases v with
      | null => simp [sizeJ, dumps]
      | bool b => cases b <;> simp [sizeJ, dumps]
      | int n => simp [sizeJ]
      | str s => simp [sizeJ, dumps]
      | arr xs =>
        cases xs with
        | nil => simp [sizeJ, sizeItems, dumps]
        | cons x xs2 =>
          have e1 : sizeJ (Json.arr (x :: xs2)) =
              1 + (1 + max (sizeJ x) (sizeItems xs2)) := by simp [sizeJ, sizeItems]
          have hxpos := sizeJ_pos x
          have hipos := sizeItems_pos xs2
          have h1 := (ih (sizeJ x) (by omega)).1 x (le_refl _)
          have h2 := (ih (sizeItems xs2) (by omega)).2.1 xs2 (le_refl _)
          have e2 : (dumps (Json.arr (x :: xs2))).length =
              2 + (dumps x).length + (dumpsArrTail xs2).length := by
            simp [dumps]
            omega
          omega
      | obj kvs =>
        cases kvs with
        | nil => simp [sizeJ, sizeMembers, dumps]
        | cons kv kvs2 =>
          obtain ⟨k, v2⟩ := kv
          have e1 : sizeJ (Json.obj ((k, v2) :: kvs2)) =
              1 + (1 + max (sizeJ v2) (sizeMembers kvs2)) := by simp [sizeJ, sizeMembers]
          have hxpos := sizeJ_pos v2
          have hipos := sizeMembers_pos kvs2
          have h1 := (ih (sizeJ v2) (by omega)).1 v2 (le_refl _)
          have h2 := (ih (sizeMembers kvs2) (by omega)).2.2 kvs2 (le_refl _)
          have e2 : (dumps (Json.obj ((k, v2) :: kvs2))).length =
              2 + (dumpsMember (k, v2)).length + (dumpsObjTail kvs2).length := by
            simp [dumps]
            omega
          have e3 : (dumpsMember (k, v2)).length =
              3 + (escapeList k).length + (dumps v2).length := by
            simp [dumpsMember]
            omega
          omega
    · intro xs hxN
      cases xs with
      | nil => simp [sizeItems, dumpsArrTail]
      | cons x xs2 =>
        have e1 : sizeItems (x :: xs2) = 1 + max (sizeJ x) (sizeItems xs2) := by
          simp [sizeItems]
        have hxpos := sizeJ_pos x
        have hipos := sizeItems_pos xs2
        have h1 := (ih (sizeJ x) (by omega)).1 x (le_refl _)
        have h2 := (ih (sizeItems xs2) (by omega)).2.1 xs2 (le_refl _)
        have e2 : (dumpsArrTail (x :: xs2)).length =
            1 + (dumps x).length + (dumpsArrTail xs2).length := by
          simp [dumpsArrTail]
          omega
        omega
    · intro kvs hkN
      cases kvs with
      | nil => simp [sizeMembers, dumpsObjTail]
      | cons kv kvs2 =>
        obtain ⟨k, v2⟩ := kv
        have e1 : sizeMembers ((k, v2) :: kvs2) = 1 + max (sizeJ v2) (sizeMembers kvs2) := by
          simp [sizeMembers]
        have hxpos := sizeJ_pos v2
        have hipos := sizeMembers_pos kvs2
        have h1 := (ih (sizeJ v2) (by omega)).1 v2 (le_refl _)
        have h2 := (ih (sizeMembers kvs2) (by omega)).2.2 kvs2 (le_refl _)
        have e2 : (dumpsObjTail ((k, v2) :: kvs2)).length =
            1 + (dumpsMember (k, v2)).length + (dumpsObjTail kvs2).length := by
          simp [dumpsObjTail]
          omega
        have e3 : (dumpsMember (k, v2)).length =
            3 + (escapeList k).length + (dumps v2).length := by
          simp [dumpsMember]
          omega
        omega

/-- The central round trip: compact serialization followed by parsing
reproduces the value. -/
theorem loads_dumps (v : Json) : loads (dumps v) = some v := by
  unfold loads
  have hsz : sizeJ v ≤ (dumps v).length + 1 := (size_le_dumps (sizeJ v)).1 v (le_refl _)
  have h := (parse_dumps_main (sizeJ v)).1 v (le_refl _) ((dumps v).length + 1) [] hsz
    (by intro c hc; simp at hc)
  rw [List.append_nil] at h
  obtain ⟨c, t, hct, hws, _, _, _, _⟩ := dumps_head_props v
  have hsk : skipWs (dumps v) = dumps v := by
    rw [hct, skipWs_cons _ _ hws]
  rw [hsk, h]
  simp [skipWs]

/-! ## Round-trip: the compact serialization is pure ASCII -/

theorem hexDigitChar_ascii (d : Nat) (h : d < 16) : (hexDigitChar d).toNat < 128 := by
  interval_cases d <;> decide

theorem escChar_ascii (c : Char) : ∀ c2 ∈ escChar c, c2.toNat < 128 := by
  intro c2 hc2
  unfold escChar at hc2
  by_cases h1 : c = '"'
  · rw [if_pos h1] at hc2
    simp at hc2
    rcases hc2 with rfl | rfl <;> decide
  rw [if_neg h1] at hc2
  by_cases h2 : c = '\\'
  · rw [if_pos h2] at hc2
    simp at hc2
    subst hc2
    decide
  rw [if_neg h2] at hc2
  by_cases h3 : c = '\x08'
  · rw [if_pos h3] at hc2
    simp at hc2
    rcases hc2 with rfl | rfl <;> decide
  rw [if_neg h3] at hc2
  by_cases h4 : c = '\t'
  · rw [if_pos h4] at hc2
    simp at hc2
    rcases hc2 with rfl | rfl <;> decide
  rw [if_neg h4] at hc2
  by_cases h5 : c = '\n'
  · rw [if_pos h5] at hc2
    simp at hc2
    rcases hc2 with rfl | rfl <;> decide
  rw [if_neg h5] at hc2
  by_cases h6 : c = '\x0c'
  · rw [if_pos h6] at hc2
    simp at hc2
    rcases hc2 with rfl | rfl <;> decide
  rw [if_neg h6] at hc2
  by_cases h7 : c = '\r'
  · rw [if_pos h7] at hc2
    simp at hc2
    rcases hc2 with rfl | rfl <;> decide
  rw [if_neg h7] at hc2
  by_cases h8 : c.toNat < 0x20
  · rw [if_pos h8] at hc2
    simp only [hex4, List.mem_cons, List.not_mem_nil, or_false] at hc2
    rcases hc2 with rfl | rfl | rfl | rfl | rfl | rfl
    · decide
    · decide
    all_goals exact hexDigitChar_ascii _ (by omega)
  rw [if_neg h8] at hc2
  by_cases h9 : c.toNat < 0x7f
  · rw [if_pos h9] at hc2
    simp at hc2
    subst hc2
    omega
  rw [if_neg h9] at hc2
  by_cases h10 : c.toNat < 0x10000
  · rw [if_pos h10] at hc2
    simp only [hex4, List.mem_cons, List.not_mem_nil, or_false] at hc2
    rcases hc2 with rfl | rfl | rfl | rfl | rfl | rfl
    · decide
    · decide
    all_goals exact hexDigitChar_ascii _ (by omega)
  rw [if_neg h10] at hc2
  have hcase : ∀ m : Nat, c2 ∈ '\\' :: 'u' :: hex4 m → c2.toNat < 128 := by
    intro m hm
    simp only [hex4, List.mem_cons, List.not_mem_nil, or_false] at hm
    rcases hm with rfl | rfl | rfl | rfl | rfl | rfl
    · decide
    · decide
    all_goals exact hexDigitChar_ascii _ (by omega)
  rw [List.mem_append] at hc2
  rcases hc2 with hc2 | hc2
  · exact hcase _ hc2
  · exact hcase _ hc2

theorem escapeList_ascii (s : List Char) : ∀ c ∈ escapeList s, c.toNat < 128 := by
  induction s with
  | nil => intro c hc; simp [escapeList] at hc
  | cons a as ih =>
    intro c hc
    simp only [escapeList, List.mem_append] at hc
    rcases hc with hc | hc
    · exact escChar_ascii a c hc
    · exact ih c hc

theorem natDump_ascii (n : Nat) : ∀ c ∈ natDump n, c.toNat < 128 := by
  induction n using Nat.strong_induction_on with
  | _ n ih =>
    by_cases h : n < 10
    · rw [natDump, dif_pos h]
      intro c hc
      simp only [List.mem_singleton] at hc
      subst hc
      rw [toNat_digitChar _ h]
      omega
    · rw [natDump, dif_neg h]
      intro c hc
      rcases List.mem_append.mp hc with hc | hc
      · exact ih (n / 10) (Nat.div_lt_self (by omega) (by omega)) c hc
      · simp only [List.mem_singleton] at hc
        subst hc
        rw [toNat_digitChar _ (Nat.mod_lt _ (by omega))]
        omega

theorem intDump_ascii (n : Int) : ∀ c ∈ intDump n, c.toNat < 128 := by
  unfold intDump
  split_ifs with h
  · intro c hc
    rcases List.mem_cons.mp hc with rfl | hc
    · decide
    · exact natDump_ascii _ c hc
  · exact natDump_ascii _

theorem dumps_ascii_main : ∀ N : Nat,
    (∀ v : Json, sizeJ v ≤ N → ∀ c ∈ dumps v, c.toNat < 128) ∧
    (∀ xs : List Json, sizeItems xs ≤ N → ∀ c ∈ dumpsArrTail xs, c.toNat < 128) ∧
    (∀ kvs : List (List Char × Json), sizeMembers kvs ≤ N →
      ∀ c ∈ dumpsObjTail kvs, c.toNat < 128) := by
  intro N
  induction N using Nat.strong_induction_on with
  | _ N ih =>
    refine ⟨?_, ?_, ?_⟩
    · intro v hvN c hc
      cases v with
      | null => simp [dumps] at hc; rcases hc with rfl | rfl | rfl <;> decide
      | bool b =>
        cases b <;> simp [dumps] at hc
        · rcases hc with rfl | rfl | rfl | rfl | rfl <;> decide
        · rcases hc with rfl | rfl | rfl | rfl <;> decide
      | int n =>
        simp only [dumps] at hc
        exact intDump_ascii n c hc
      | str s =>
        simp only [dumps, List.mem_cons, List.mem_append, List.mem_singleton,
          List.not_mem_nil, or_false] at hc
        rcases hc with rfl | hc | rfl
        · decide
        · exact escapeList_ascii s c hc
        · decide
      | arr xs =>
        cases xs with
        | nil => simp [dumps] at hc; rcases hc with rfl | rfl <;> decide
        | cons x xs2 =>
          have e1 : sizeJ (Json.arr (x :: xs2)) =
              1 + (1 + max (sizeJ x) (sizeItems xs2)) := by simp [sizeJ, sizeItems]
          have hxpos := sizeJ_pos x
          have hipos := sizeItems_pos xs2
          simp only [dumps, List.mem_cons, List.mem_append, List.mem_singleton,
            List.not_mem_nil, or_false] at hc
          rcases hc with rfl | hc | hc | rfl
          · decide
          · exact (ih (sizeJ x) (by omega)).1 x (le_refl _) c hc
          · exact (ih (sizeItems xs2) (by omega)).2.1 xs2 (le_refl _) c hc
          · decide
      | obj kvs =>
        cases kvs with
        | nil => simp [dumps] at hc; rcases hc with rfl | rfl <;> decide
        | cons kv kvs2 =>
          obtain ⟨k, v2⟩ := kv
          have e1 : sizeJ (Json.obj ((k, v2) :: kvs2)) =
              1 + (1 + max (sizeJ v2) (sizeMembers kvs2)) := by simp [sizeJ, sizeMembers]
          have hxpos := sizeJ_pos v2
          have hipos := sizeMembers_pos kvs2
          simp only [dumps, dumpsMember, List.mem_cons, List.mem_append,
            List.mem_singleton, List.not_mem_nil, or_false, or_assoc] at hc
          rcases hc with rfl | rfl | hc | rfl | rfl | hc | hc | rfl
          · decide
          · decide
          · exact escapeList_ascii k c hc
          · decide
          · decide
          · exact (ih (sizeJ v2) (by omega)).1 v2 (le_refl _) c hc
          · exact (ih (sizeMembers kvs2) (by omega)).2.2 kvs2 (le_refl _) c hc
          · decide
    · intro xs hxN c hc
      cases xs with
      | nil => simp [dumpsArrTail] at hc
      | cons x xs2 =>
        have e1 : sizeItems (x :: xs2) = 1 + max (sizeJ x) (sizeItems xs2) := by
          simp [sizeItems]
        have hxpos := sizeJ_pos x
        have hipos := sizeItems_pos xs2
        simp only [dumpsArrTail, List.mem_cons, List.mem_append, List.not_mem_nil,
          or_false] at hc
        rcases hc with rfl | hc | hc
        · decide
        · exact (ih (sizeJ x) (by omega)).1 x (le_refl _) c hc
        · exact (ih (sizeItems xs2) (by omega)).2.1 xs2 (le_refl _) c hc
    · intro kvs hkN c hc
      cases kvs with
      | nil => simp [dumpsObjTail] at hc
      | cons kv kvs2 =>
        obtain ⟨k, v2⟩ := kv
        have e1 : sizeMembers ((k, v2) :: kvs2) = 1 + max (sizeJ v2) (sizeMembers kvs2) := by
          simp [sizeMembers]
        have hxpos := sizeJ_pos v2
        have hipos := sizeMembers_pos kvs2
        simp only [dumpsObjTail, dumpsMember, List.mem_cons, List.mem_append,
          List.mem_singleton, List.not_mem_nil, or_false, or_assoc] at hc
        rcases hc with rfl | rfl | hc | rfl | rfl | hc | hc
        · decide
        · decide
        · exact escapeList_ascii k c hc
        · decide
        · decide
        · exact (ih (sizeJ v2) (by omega)).1 v2 (le_refl _) c hc
        · exact (ih (sizeMembers kvs2) (by omega)).2.2 kvs2 (le_refl _) c hc

theorem dumps_ascii (v : Json) : ∀ c ∈ dumps v, c.toNat < 128 :=
  (dumps_ascii_main (sizeJ v)).1 v (le_refl _)

/-! ## Round-trip: UTF-8 and the length prefix -/

set_option maxHeartbeats 2000000 in
theorem utf8Decode_ascii_step (b : Nat) (hb : b < 128) (r : List Nat) :
    utf8Decode (b :: r) = (utf8Decode r).map (fun l => Char.ofNat b :: l) := by
  conv_lhs => rw [utf8Decode.eq_def]
  simp [if_pos hb]

theorem utf8_ascii_roundtrip (l : List Char) (h : ∀ c ∈ l, c.toNat < 128) :
    utf8Decode (utf8Encode l) = some l := by
  induction l with
  | nil => simp [utf8Encode, utf8Decode]
  | cons c cs ih =>
    have hc := h c (by simp)
    have hcs := ih (fun x hx => h x (by simp [hx]))
    have he : utf8EncodeChar c = [c.toNat] := by
      unfold utf8EncodeChar
      rw [if_pos hc]
    have henc : utf8Encode (c :: cs) = c.toNat :: utf8Encode cs := by
      show utf8EncodeChar c ++ utf8Encode cs = c.toNat :: utf8Encode cs
      rw [he]
      rfl
    rw [henc, utf8Decode_ascii_step c.toNat hc, hcs]
    simp [Char.ofNat_toNat]

theorem unpack4_pack4 (n : Nat) (h : n < 4294967296) :
    unpack4 (n % 256) (n / 256 % 256) (n / 65536 % 256) (n / 16777216 % 256) = n := by
  unfold unpack4
  omega

/-- C4. Writing any JSON value as a native-messaging frame and reading
that frame back from the byte stream yields the original value exactly,
leaving the remainder of the stream untouched. (`send_message` is `none`
only when the payload cannot fit the 32-bit length prefix, in which case
the Python original raises instead of writing a frame.) -/
theorem c4_frame_roundtrip (v : Json) (frame rest : List Nat)
    (h : send_message v = some frame) :
    read_message (frame ++ rest) = some (some v, rest) := by
  unfold send_message at h
  by_cases hlen : (utf8Encode (dumps v)).length < 4294967296
  · rw [if_pos hlen] at h
    have hframe : frame = pack4 (utf8Encode (dumps v)).length ++ utf8Encode (dumps v) :=
      (Option.some.inj h).symm
    subst hframe
    simp only [pack4, List.cons_append, List.append_assoc, List.nil_append]
    simp only [read_message]
    rw [unpack4_pack4 _ hlen]
    rw [if_pos (by rw [List.length_append]; omega :
      (utf8Encode (dumps v)).length ≤ (utf8Encode (dumps v) ++ rest).length)]
    rw [List.take_left]
    simp only [utf8_ascii_roundtrip (dumps v) (dumps_ascii v), loads_dumps, List.drop_left]
  · rw [if_neg hlen] at h
    cases h

/-- C4 witness: the frame for `null` is the 4-byte length prefix `4`
followed by the UTF-8 bytes of `null`, and reading it back yields `null`
with the rest of the stream intact. -/
theorem c4_frame_roundtrip_witness :
    send_message Json.null = some [4, 0, 0, 0, 110, 117, 108, 108] ∧
    read_message ([4, 0, 0, 0, 110, 117, 108, 108] ++ [9]) =
      some (some Json.null, [9]) :=
  ⟨by decide, c4_frame_roundtrip Json.null _ [9] (by decide)⟩

end FireClaude
